import Mathlib

/-!
# Breeze MDI window shadows

A shallow embedding of `kstyle/breezemdiwindowshadow.cpp`: the shadow widget
(`MdiWindowShadow`) and the factory that installs, updates and removes shadows
(`MdiWindowShadowFactory`), over a small model of the widget tree the code
manipulates.

C++ `int` values are modelled by `Int`; object pointers by `Nat` identifiers
(`Option Nat` where the pointer may be null).
-/

namespace Breeze

/-! ## Toolkit geometry: points, rectangles, regions -/

/-- Integer point (QPoint). -/
structure QPoint where
  x : Int
  y : Int
deriving DecidableEq, Repr

/-- Integer rectangle (QRect), stored the way the toolkit stores it: the inclusive
coordinates of the left, top, right and bottom edges. -/
structure QRect where
  x1 : Int
  y1 : Int
  x2 : Int
  y2 : Int
deriving DecidableEq, Repr

namespace QPoint

/-- Unary minus on points. -/
def neg (p : QPoint) : QPoint := ⟨-p.x, -p.y⟩

/-- Sum of two points. -/
def add (p q : QPoint) : QPoint := ⟨p.x + q.x, p.y + q.y⟩

end QPoint

namespace QRect

/-- Default constructed rectangle `QRect()`. -/
def null : QRect := ⟨0, 0, -1, -1⟩

/-- Rectangle from position and size: `QRect(x, y, w, h)`. -/
def ofSize (x y w h : Int) : QRect := ⟨x, y, x + w - 1, y + h - 1⟩

/-- Width `x2 - x1 + 1`. -/
def width (r : QRect) : Int := r.x2 - r.x1 + 1

/-- Height `y2 - y1 + 1`. -/
def height (r : QRect) : Int := r.y2 - r.y1 + 1

/-- Test `isNull()`: width and height are both zero. -/
def isNull (r : QRect) : Bool := r.x2 == r.x1 - 1 && r.y2 == r.y1 - 1

/-- Test `isEmpty()`: left of the right edge or top below the bottom edge. -/
def isEmpty (r : QRect) : Bool := decide (r.x1 > r.x2) || decide (r.y1 > r.y2)

/-- Top-left corner. -/
def topLeft (r : QRect) : QPoint := ⟨r.x1, r.y1⟩

/-- Rectangle with the given offsets added to its four edges: `adjusted(dx1, dy1, dx2, dy2)`. -/
def adjusted (r : QRect) (dx1 dy1 dx2 dy2 : Int) : QRect :=
  ⟨r.x1 + dx1, r.y1 + dy1, r.x2 + dx2, r.y2 + dy2⟩

/-- Rectangle moved by the offset `p`: `translated(p)`. -/
def translated (r : QRect) (p : QPoint) : QRect :=
  ⟨r.x1 + p.x, r.y1 + p.y, r.x2 + p.x, r.y2 + p.y⟩

/-- Intersection `operator&`. A null operand or disjoint spans give `QRect()`; an
operand of negative width or height is read with its two edges swapped. -/
def intersected (a b : QRect) : QRect :=
  if a.isNull || b.isNull then null
  else
    let l1 := if a.x2 - a.x1 + 1 < 0 then a.x2 else a.x1
    let r1 := if a.x2 - a.x1 + 1 < 0 then a.x1 else a.x2
    let l2 := if b.x2 - b.x1 + 1 < 0 then b.x2 else b.x1
    let r2 := if b.x2 - b.x1 + 1 < 0 then b.x1 else b.x2
    if l1 > r2 || l2 > r1 then null
    else
      let t1 := if a.y2 - a.y1 + 1 < 0 then a.y2 else a.y1
      let b1 := if a.y2 - a.y1 + 1 < 0 then a.y1 else a.y2
      let t2 := if b.y2 - b.y1 + 1 < 0 then b.y2 else b.y1
      let b2 := if b.y2 - b.y1 + 1 < 0 then b.y1 else b.y2
      if t1 > b2 || t2 > b1 then null
      else ⟨max l1 l2, max t1 t2, min r1 r2, min b1 b2⟩

/-- Pixel `p` lies in the rectangle, in the sense in which a region built from the
rectangle contains it: between the stored edges, inclusive. -/
def covers (r : QRect) (p : QPoint) : Prop :=
  r.x1 ≤ p.x ∧ p.x ≤ r.x2 ∧ r.y1 ≤ p.y ∧ p.y ≤ r.y2

instance (r : QRect) (p : QPoint) : Decidable (r.covers p) := by
  unfold covers; infer_instance

/-- Neither the width nor the height is negative. -/
def nonInverted (r : QRect) : Prop := r.x1 - 1 ≤ r.x2 ∧ r.y1 - 1 ≤ r.y2

instance (r : QRect) : Decidable r.nonInverted := by
  unfold nonInverted; infer_instance

/-- Pieces of `r` left when `h` is cut out, in band order: the band above `h`, the
parts left and right of `h` in the rows they share, the band below `h`. Empty pieces
are dropped. -/
def minus (r h : QRect) : List QRect :=
  [ (⟨r.x1, r.y1, r.x2, min r.y2 (h.y1 - 1)⟩ : QRect),
    ⟨r.x1, max r.y1 h.y1, min r.x2 (h.x1 - 1), min r.y2 h.y2⟩,
    ⟨max r.x1 (h.x2 + 1), max r.y1 h.y1, r.x2, min r.y2 h.y2⟩,
    ⟨r.x1, max r.y1 (h.y2 + 1), r.x2, r.y2⟩ ].filter (fun q => !q.isEmpty)

end QRect

/-- Region (QRegion): a finite union of non-empty rectangles. -/
structure QRegion where
  rects : List QRect
deriving DecidableEq, Repr

namespace QRegion

/-- Region of one rectangle, `QRegion(r)`: empty when `r.isEmpty()`. -/
def ofRect (r : QRect) : QRegion := if r.isEmpty then ⟨[]⟩ else ⟨[r]⟩

/-- Test `isEmpty()`: the region has no rectangle. -/
def isEmpty (R : QRegion) : Bool := R.rects.isEmpty

/-- Set difference `operator-`: every rectangle of `S` is cut out of every rectangle
of `R`. -/
def subtracted (R S : QRegion) : QRegion :=
  ⟨S.rects.foldl (fun acc h => acc.flatMap (fun r => r.minus h)) R.rects⟩

/-- Region moved by the offset `p`. -/
def translated (R : QRegion) (p : QPoint) : QRegion :=
  ⟨R.rects.map (fun r => r.translated p)⟩

/-- Pixel `p` belongs to the region. -/
def contains (R : QRegion) (p : QPoint) : Prop := ∃ r ∈ R.rects, r.covers p

instance (R : QRegion) (p : QPoint) : Decidable (R.contains p) := by
  unfold contains; infer_instance

end QRegion

/-! ## Style parameters read by `updateGeometry` -/

/-- The two numbers `updateGeometry` reads from the rest of the style: the configured
shadow size `ShadowHelper::shadowSize( StyleConfigData::shadowSize() )` and the
constant `Metrics::Shadow_Overlap`. Both are defined outside the modelled file and
are taken as parameters. -/
structure StyleMetrics where
  shadowSize : Int
  Shadow_Overlap : Int
deriving DecidableEq, Repr

/-- Values of the locals of `MdiWindowShadow::updateGeometry` after line 79. -/
structure ShadowGeometry where
  /-- Value of `_shadowTilesRect` assigned at line 60 (before clipping). -/
  shadowTilesRect : QRect
  /-- Local `geometry` after the clipping of lines 71-76. -/
  geometry : QRect
  /-- Local `hole` after the clipping of lines 71-76. -/
  hole : QRect
  /-- Local `mask` of line 79. -/
  mask : QRegion
deriving DecidableEq, Repr

/-- Lines 50-51: `shadowOffset = qMax( shadowSize/2, Metrics::Shadow_Overlap*2 )`,
with the truncating division of C++. -/
def shadowOffset (m : StyleMetrics) : Int :=
  max (m.shadowSize.tdiv 2) (m.Shadow_Overlap * 2)

/-- Lines 49-79 of `MdiWindowShadow::updateGeometry` as a function of the tracked
widget's frame geometry and of the rectangle of the resolved parent (`none` when the
shadow has no parent). -/
def computeShadowGeometry (m : StyleMetrics) (frameGeometry : QRect)
    (parentRect : Option QRect) : ShadowGeometry :=
  let shadowSize := m.shadowSize
  let shadowOffset := shadowOffset m
  let size := shadowSize - m.Shadow_Overlap
  let topSize := size - shadowOffset
  let bottomSize := size
  let leftSize := size
  let rightSize := size
  let hole := frameGeometry
  let shadowTilesRect := hole.adjusted (-leftSize) (-topSize) rightSize bottomSize
  let geometry := shadowTilesRect
  let clipped : QRect × QRect :=
    match parentRect with
    | some pr => (geometry.intersected pr, hole.intersected pr)
    | none => (geometry, hole)
  let mask := (QRegion.ofRect clipped.1).subtracted
    (QRegion.ofRect (clipped.2.adjusted 2 2 (-2) (-2)))
  { shadowTilesRect := shadowTilesRect, geometry := clipped.1, hole := clipped.2, mask := mask }

/-! ## Widget tree -/

/-- Classes of the objects the code distinguishes with `qobject_cast` and `inherits`. -/
inductive WidgetClass
  | QWidget
  | QMdiSubWindow
  | QAbstractScrollArea
  | QMdiArea
  | KMainWindow
  | MdiWindowShadow
deriving DecidableEq, Repr

namespace WidgetClass

/-- Whether `qobject_cast<QMdiSubWindow*>` succeeds. -/
def isMdiSubWindow : WidgetClass → Bool
  | QMdiSubWindow => true
  | _ => false

/-- Whether `qobject_cast<QMdiArea*>` succeeds. -/
def isMdiArea : WidgetClass → Bool
  | QMdiArea => true
  | _ => false

/-- Whether `qobject_cast<QAbstractScrollArea*>` succeeds (an MDI area is a scroll area). -/
def isAbstractScrollArea : WidgetClass → Bool
  | QAbstractScrollArea => true
  | QMdiArea => true
  | _ => false

/-- Whether `inherits( "KMainWindow" )` holds. -/
def inheritsKMainWindow : WidgetClass → Bool
  | KMainWindow => true
  | _ => false

/-- Whether `qobject_cast<MdiWindowShadow*>` succeeds. -/
def isMdiWindowShadow : WidgetClass → Bool
  | MdiWindowShadow => true
  | _ => false

end WidgetClass

/-- One widget of the tree, with the attributes the code reads or writes. -/
structure Widget where
  /-- Dynamic class. -/
  cls : WidgetClass
  /-- Result of `parent()` / `parentWidget()`. -/
  parent : Option Nat
  /-- Result of `children()`: creation order, rearranged by restacking; later entries are
  stacked above earlier ones. -/
  children : List Nat
  /-- Show/hide state, read by `isVisible()`. -/
  visible : Bool
  /-- Position in the parent. -/
  x : Int
  /-- Position in the parent. -/
  y : Int
  /-- Width (never negative). -/
  width : Nat
  /-- Height (never negative). -/
  height : Nat
  /-- Mask set by `setMask`, if any. -/
  mask : Option QRegion
  /-- Inner widget of a sub-window, `QMdiSubWindow::widget()`. -/
  inner : Option Nat
  /-- Viewport of a scroll area, `QAbstractScrollArea::viewport()`. -/
  viewport : Option Nat
  /-- Member `MdiWindowShadow::_widget`. -/
  _widget : Option Nat
  /-- Member `MdiWindowShadow::_shadowTilesRect`. -/
  _shadowTilesRect : QRect
deriving DecidableEq, Repr

namespace Widget

/-- Result of `geometry()`. -/
def geometry (w : Widget) : QRect := QRect.ofSize w.x w.y w.width w.height

/-- Result of `rect()`: the geometry moved to the origin. -/
def rect (w : Widget) : QRect := QRect.ofSize 0 0 w.width w.height

/-- Result of `frameGeometry()`. The widgets whose frame geometry the code reads are
children of another widget, for which the toolkit returns the geometry itself. -/
def frameGeometry (w : Widget) : QRect := w.geometry

/-- A plain widget without parent, as a default. -/
def blank : Widget :=
  { cls := WidgetClass.QWidget, parent := none, children := [], visible := false,
    x := 0, y := 0, width := 0, height := 0, mask := none, inner := none,
    viewport := none, _widget := none, _shadowTilesRect := QRect.null }

end Widget

/-- The widget tree together with the members of the one factory object. -/
structure State where
  /-- Widget record of every object identifier. -/
  widgets : Nat → Widget
  /-- Next unused object identifier. -/
  nextId : Nat
  /-- Member `MdiWindowShadowFactory::_registeredWidgets`, kept as a duplicate-free list. -/
  _registeredWidgets : List Nat
  /-- Objects on which the factory is installed as event filter. -/
  eventFilters : List Nat
  /-- Objects whose `destroyed` signal is connected to `widgetDestroyed`, one entry per
  connection. -/
  destroyedConnections : List Nat
  /-- Objects for which `deleteLater()` was called and not yet carried out. -/
  deferredDelete : List Nat

namespace State

/-- Replace the record of widget `i` by `f` applied to it. -/
def modify (σ : State) (i : Nat) (f : Widget → Widget) : State :=
  { σ with widgets := fun j => if j = i then f (σ.widgets j) else σ.widgets j }

end State

/-! ## Toolkit operations on widgets -/

/-- Toolkit `QWidget::hide()`. -/
def hideWidget (σ : State) (i : Nat) : State :=
  σ.modify i (fun w => { w with visible := false })

/-- Toolkit `QWidget::show()`. -/
def showWidget (σ : State) (i : Nat) : State :=
  σ.modify i (fun w => { w with visible := true })

/-- Toolkit `QWidget::setGeometry( r )`; a negative width or height is stored as zero. -/
def setGeometry (σ : State) (i : Nat) (r : QRect) : State :=
  σ.modify i (fun w => { w with x := r.x1, y := r.y1,
                                width := r.width.toNat, height := r.height.toNat })

/-- Toolkit `QWidget::setMask( region )`. -/
def setMask (σ : State) (i : Nat) (R : QRegion) : State :=
  σ.modify i (fun w => { w with mask := some R })

/-- Toolkit `QObject::deleteLater()`: the deletion is carried out when control returns
to the event loop. -/
def deleteLater (σ : State) (i : Nat) : State :=
  { σ with deferredDelete := i :: σ.deferredDelete }

/-- Toolkit `QList::move( from, to )`: the item at index `fromIdx` is taken out and put
back at index `toIdx`. -/
def qlistMove (l : List Nat) (fromIdx toIdx : Nat) : List Nat :=
  match l.get? fromIdx with
  | none => l
  | some a => (l.eraseIdx fromIdx).insertIdx toIdx a

/-- Toolkit `QWidget::stackUnder( w )` for a child widget: nothing happens unless both
widgets have the same parent and differ; otherwise the widget is moved, in the parent's
list of children, to the position just before `w`. -/
def stackUnder (σ : State) (self w : Nat) : State :=
  let p := (σ.widgets self).parent
  if p ≠ (σ.widgets w).parent ∨ self = w then σ
  else
    match p with
    | none => σ
    | some p =>
      let children := (σ.widgets p).children
      let fromIdx := children.indexOf self
      let toIdx := children.indexOf w
      let toIdx := if fromIdx < toIdx then toIdx - 1 else toIdx
      if fromIdx ≠ toIdx then
        σ.modify p (fun pw => { pw with children := qlistMove pw.children fromIdx toIdx })
      else σ

/-- Toolkit: what the event loop does with a deferred deletion of `d`. The object leaves
its parent's list of children and the list of pending deletions. -/
def deliverDeferredDelete (σ : State) (d : Nat) : State :=
  let σ1 : State :=
    match (σ.widgets d).parent with
    | none => σ
    | some p => σ.modify p (fun pw => { pw with children := pw.children.erase d })
  let σ2 := σ1.modify d (fun w => { w with parent := none })
  { σ2 with deferredDelete := σ2.deferredDelete.filter (fun j => j != d) }

/-! ## The shadow widget -/

namespace MdiWindowShadow

/-- Record of a shadow widget right after construction with the given parent: a child
widget with the default geometry, not yet shown, tracking nothing. -/
def fresh (parent : Nat) : Widget :=
  { cls := WidgetClass.MdiWindowShadow, parent := some parent, children := [],
    visible := false, x := 0, y := 0, width := 100, height := 30, mask := none,
    inner := none, viewport := none, _widget := none, _shadowTilesRect := QRect.null }

/-- Constructor `MdiWindowShadow( parent, shadowTiles )`: a new child widget of `parent`,
appended to its children. Returns the new state and the identifier of the new object. -/
def new (σ : State) (parent : Nat) : State × Nat :=
  let id := σ.nextId
  ({ σ with
      widgets := fun j =>
        if j = id then fresh parent
        else if j = parent then
          { σ.widgets j with children := (σ.widgets j).children ++ [id] }
        else σ.widgets j,
      nextId := id + 1 }, id)

/-- Modelled from the spec: the setter `setWidget` of the class declaration, which is not
part of the file; it stores the tracked widget in `_widget`. -/
def setWidget (σ : State) (self value : Nat) : State :=
  σ.modify self (fun w => { w with _widget := some value })

/-- Modelled from the spec: the getter `widget()` of the class declaration, which is not
part of the file; it returns `_widget`. -/
def widget (σ : State) (self : Nat) : Option Nat := (σ.widgets self)._widget

/-- Lines 62-68 of `updateGeometry`: the widget whose rectangle clips the shadow. -/
def viewportParent (σ : State) (self : Nat) : Option Nat :=
  let parent := (σ.widgets self).parent
  let parent :=
    match parent with
    | some p =>
      if !(σ.widgets p).cls.isMdiArea &&
          (match (σ.widgets p).parent with
            | some pp => (σ.widgets pp).cls.isMdiArea
            | none => false)
      then (σ.widgets p).parent
      else some p
    | none => none
  match parent with
  | some p => if (σ.widgets p).cls.isAbstractScrollArea then (σ.widgets p).viewport else some p
  | none => none

/-- Values of the locals of `updateGeometry` for the shadow `self` tracking `w`. -/
def locals (m : StyleMetrics) (σ : State) (self w : Nat) : ShadowGeometry :=
  computeShadowGeometry m (σ.widgets w).frameGeometry
    ((viewportParent σ self).map (fun p => (σ.widgets p).rect))

/-- Method `MdiWindowShadow::updateGeometry()`. -/
def updateGeometry (m : StyleMetrics) (σ : State) (self : Nat) : State :=
  match (σ.widgets self)._widget with
  | none => σ
  | some w =>
    let g := locals m σ self w
    let σ1 :=
      if g.mask.isEmpty then hideWidget σ self
      else
        showWidget
          (setMask (setGeometry σ self g.geometry) self
            (g.mask.translated g.geometry.topLeft.neg)) self
    σ1.modify self (fun sw =>
      { sw with _shadowTilesRect := g.shadowTilesRect.translated g.geometry.topLeft.neg })

/-- Method `MdiWindowShadow::updateZOrder()`: `stackUnder( _widget )`, which returns at
once for a null argument. -/
def updateZOrder (σ : State) (self : Nat) : State :=
  match (σ.widgets self)._widget with
  | none => σ
  | some w => stackUnder σ self w

end MdiWindowShadow

/-! ## The factory -/

/-- Event types told apart by `eventFilter`. -/
inductive QEvent
  | ZOrderChange
  | Destroy
  | Hide
  | Show
  | Move
  | Resize
  | Other
deriving DecidableEq, Repr

namespace MdiWindowShadowFactory

/-- Modelled from the spec: the inline `isRegistered` of the class declaration, which is
not part of the file; membership in the registered-widget set. -/
def isRegistered (σ : State) (widget : Nat) : Bool :=
  decide (widget ∈ σ._registeredWidgets)

/-- Method `findShadow`: the first child of the object's parent that is a shadow whose
tracked widget is the object. -/
def findShadow (σ : State) (object : Nat) : Option Nat :=
  match (σ.widgets object).parent with
  | none => none
  | some p =>
    (σ.widgets p).children.find? (fun child =>
      (σ.widgets child).cls.isMdiWindowShadow &&
        decide (MdiWindowShadow.widget σ child = some object))

/-- Method `installShadow`. -/
def installShadow (σ : State) (object : Nat) : State :=
  match (σ.widgets object).parent with
  | none => σ
  | some p =>
    if (findShadow σ object).isSome then σ
    else
      let r := MdiWindowShadow.new σ p
      MdiWindowShadow.setWidget r.1 r.2 object

/-- Method `removeShadow`. -/
def removeShadow (σ : State) (object : Nat) : State :=
  match findShadow σ object with
  | some windowShadow => deleteLater (hideWidget σ windowShadow) windowShadow
  | none => σ

/-- Modelled from the spec: the inline `hideShadows` of the class declaration, which is
not part of the file; the shadow of the object, if there is one, is hidden. -/
def hideShadows (σ : State) (object : Nat) : State :=
  match findShadow σ object with
  | some windowShadow => hideWidget σ windowShadow
  | none => σ

/-- Modelled from the spec: the inline `updateShadowGeometry` of the class declaration,
which is not part of the file; the shadow of the object, if there is one, is repositioned
by its `updateGeometry`. -/
def updateShadowGeometry (m : StyleMetrics) (σ : State) (object : Nat) : State :=
  match findShadow σ object with
  | some windowShadow => MdiWindowShadow.updateGeometry m σ windowShadow
  | none => σ

/-- Modelled from the spec: the inline `updateShadowZOrder` of the class declaration,
which is not part of the file; the shadow of the object, if there is one, is restacked by
its `updateZOrder`. -/
def updateShadowZOrder (σ : State) (object : Nat) : State :=
  match findShadow σ object with
  | some windowShadow => MdiWindowShadow.updateZOrder σ windowShadow
  | none => σ

/-- Method `registerWidget`: the returned flag and the state after the call. -/
def registerWidget (m : StyleMetrics) (σ : State) (widget : Nat) : Bool × State :=
  if !(σ.widgets widget).cls.isMdiSubWindow then (false, σ)
  else if (match (σ.widgets widget).inner with
            | some i => (σ.widgets i).cls.inheritsKMainWindow
            | none => false) then (false, σ)
  else if isRegistered σ widget then (false, σ)
  else
    let σ1 : State := { σ with _registeredWidgets := σ._registeredWidgets.insert widget }
    let σ2 : State :=
      if (σ1.widgets widget).visible then
        updateShadowZOrder (updateShadowGeometry m (installShadow σ1 widget) widget) widget
      else σ1
    let σ3 : State := { σ2 with eventFilters := σ2.eventFilters.insert widget }
    (true, { σ3 with destroyedConnections := widget :: σ3.destroyedConnections })

/-- Method `unregisterWidget`. -/
def unregisterWidget (σ : State) (widget : Nat) : State :=
  if !isRegistered σ widget then σ
  else
    let σ1 : State := { σ with eventFilters := σ.eventFilters.filter (fun j => j != widget) }
    let σ2 : State :=
      { σ1 with _registeredWidgets := σ1._registeredWidgets.filter (fun j => j != widget) }
    removeShadow σ2 widget

/-- Method `eventFilter`: the returned flag (that of `QObject::eventFilter`, always
false) and the state after the call. -/
def eventFilter (m : StyleMetrics) (σ : State) (object : Nat) (event : QEvent) :
    Bool × State :=
  let σ1 : State :=
    match event with
    | QEvent.ZOrderChange => updateShadowZOrder σ object
    | QEvent.Destroy =>
      if isRegistered σ object then
        removeShadow
          { σ with _registeredWidgets := σ._registeredWidgets.filter (fun j => j != object) }
          object
      else σ
    | QEvent.Hide => hideShadows σ object
    | QEvent.Show =>
      updateShadowZOrder (updateShadowGeometry m (installShadow σ object) object) object
    | QEvent.Move => updateShadowGeometry m σ object
    | QEvent.Resize => updateShadowGeometry m σ object
    | QEvent.Other => σ
  (false, σ1)

/-- Slot `widgetDestroyed`. -/
def widgetDestroyed (σ : State) (object : Nat) : State :=
  { σ with _registeredWidgets := σ._registeredWidgets.filter (fun j => j != object) }

end MdiWindowShadowFactory

/-! ## Shadows of a widget, well-formed trees, reachable states -/

/-- Whether `child` is a shadow widget whose tracked widget is `object`: the test made by
`findShadow` on each child. -/
def isShadowOf (σ : State) (object child : Nat) : Bool :=
  (σ.widgets child).cls.isMdiWindowShadow &&
    decide (MdiWindowShadow.widget σ child = some object)

/-- All shadow widgets of `object`: the children of its parent that are shadows tracking
it, in the order of the parent's list of children. -/
def shadowsOf (σ : State) (object : Nat) : List Nat :=
  match (σ.widgets object).parent with
  | none => []
  | some p => (σ.widgets p).children.filter (isShadowOf σ object)

/-- In the list of children `l`, `below` comes immediately before `above`: in the
stacking order nothing lies between them. -/
def DirectlyBelow (l : List Nat) (below above : Nat) : Prop :=
  ∃ l1 l2, l = l1 ++ below :: above :: l2

/-- Consistency of the widget tree as the toolkit maintains it: the children lists and
the parent pointers describe the same tree, no child is listed twice, and only
identifiers already handed out occur. -/
structure WellFormedTree (σ : State) : Prop where
  children_lt : ∀ i c, c ∈ (σ.widgets i).children → i < σ.nextId ∧ c < σ.nextId
  parent_of_child : ∀ i c, c ∈ (σ.widgets i).children → (σ.widgets c).parent = some i
  child_of_parent : ∀ i p, (σ.widgets i).parent = some p → i ∈ (σ.widgets p).children
  nodup : ∀ i, (σ.widgets i).children.Nodup

/-- A freshly constructed factory over a consistent widget tree: nothing is registered,
nothing is pending, and no shadow widget exists yet. -/
structure EmptyFactory (σ : State) : Prop where
  tree : WellFormedTree σ
  no_shadow : ∀ i, (σ.widgets i).cls ≠ WidgetClass.MdiWindowShadow
  no_registered : σ._registeredWidgets = []
  no_filter : σ.eventFilters = []
  no_connection : σ.destroyedConnections = []
  no_deferred : σ.deferredDelete = []

/-- The state `τ` has the same widget tree as `σ`: the same identifiers, classes, parents,
tracked widgets and lists of children; other attributes may differ. -/
structure SameTree (σ τ : State) : Prop where
  nextId : τ.nextId = σ.nextId
  cls : ∀ i, (τ.widgets i).cls = (σ.widgets i).cls
  parent : ∀ i, (τ.widgets i).parent = (σ.widgets i).parent
  tracked : ∀ i, (τ.widgets i)._widget = (σ.widgets i)._widget
  children : ∀ i, (τ.widgets i).children = (σ.widgets i).children

/-- The state `τ` has the same widget tree as `σ` up to the stacking order: every list of
children is a rearrangement of the one in `σ`. -/
structure TreePerm (σ τ : State) : Prop where
  nextId : τ.nextId = σ.nextId
  cls : ∀ i, (τ.widgets i).cls = (σ.widgets i).cls
  parent : ∀ i, (τ.widgets i).parent = (σ.widgets i).parent
  tracked : ∀ i, (τ.widgets i)._widget = (σ.widgets i)._widget
  children : ∀ i, (τ.widgets i).children.Perm (σ.widgets i).children

/-- Invariant of the reachable states: the tree is consistent, every shadow tracks an
existing widget other than itself, and no widget has two shadows. -/
structure Inv (σ : State) : Prop where
  tree : WellFormedTree σ
  tracked_lt : ∀ i t, (σ.widgets i).cls = WidgetClass.MdiWindowShadow →
    (σ.widgets i)._widget = some t → t < σ.nextId ∧ t ≠ i
  atMostOne : ∀ w, (shadowsOf σ w).length ≤ 1

/-- Calls into the factory. -/
inductive Call
  | registerWidget (widget : Nat)
  | unregisterWidget (widget : Nat)
  | eventFilter (object : Nat) (event : QEvent)
  | widgetDestroyed (object : Nat)
deriving DecidableEq, Repr

/-- State after one call into the factory. -/
def MdiWindowShadowFactory.call (m : StyleMetrics) (σ : State) : Call → State
  | Call.registerWidget widget => (MdiWindowShadowFactory.registerWidget m σ widget).2
  | Call.unregisterWidget widget => MdiWindowShadowFactory.unregisterWidget σ widget
  | Call.eventFilter object event => (MdiWindowShadowFactory.eventFilter m σ object event).2
  | Call.widgetDestroyed object => MdiWindowShadowFactory.widgetDestroyed σ object

/-- States reachable from an empty factory by calls into the factory. Between two calls
the event loop may carry out a pending deferred deletion, and the toolkit may change the
attributes of any widget and restack the children of any widget, as long as the classes,
the parents, the tracked widgets and the members of the factory stay as they are. -/
inductive Reachable (m : StyleMetrics) : State → Prop
  | init (σ : State) : EmptyFactory σ → Reachable m σ
  | call (σ : State) (c : Call) : Reachable m σ → Reachable m (MdiWindowShadowFactory.call m σ c)
  | deferredDelete (σ : State) (d : Nat) :
      Reachable m σ → d ∈ σ.deferredDelete → Reachable m (deliverDeferredDelete σ d)
  | toolkit (σ τ : State) :
      Reachable m σ → TreePerm σ τ →
      τ._registeredWidgets = σ._registeredWidgets → τ.eventFilters = σ.eventFilters →
      τ.destroyedConnections = σ.destroyedConnections → τ.deferredDelete = σ.deferredDelete →
      Reachable m τ

/-! ## Example states -/

/-- A tree for examples: an MDI area (0) whose viewport (1) holds a visible sub-window
(2) and a hidden sub-window (3). No widget is registered and no shadow exists. -/
def exampleTree : State :=
  { widgets := fun i =>
      if i = 0 then
        { Widget.blank with cls := WidgetClass.QMdiArea, children := [1], visible := true,
                            width := 400, height := 300, viewport := some 1 }
      else if i = 1 then
        { Widget.blank with parent := some 0, children := [2, 3], visible := true,
                            width := 400, height := 300 }
      else if i = 2 then
        { Widget.blank with cls := WidgetClass.QMdiSubWindow, parent := some 1,
                            visible := true, x := 10, y := 10, width := 100, height := 50 }
      else if i = 3 then
        { Widget.blank with cls := WidgetClass.QMdiSubWindow, parent := some 1,
                            visible := false, x := 200, y := 100, width := 100, height := 50 }
      else Widget.blank,
    nextId := 4,
    _registeredWidgets := [],
    eventFilters := [],
    destroyedConnections := [],
    deferredDelete := [] }

/-- Style parameters for examples: shadow size 16, overlap 2. -/
def exampleMetrics : StyleMetrics := ⟨16, 2⟩

/-- The example tree after the visible sub-window 2 was registered: widget 4 is its
shadow. -/
def exampleShadowed : State :=
  (MdiWindowShadowFactory.registerWidget exampleMetrics exampleTree 2).2

/-! ## Rectangles and regions: pixel-level facts -/

namespace QRect

theorem isEmpty_eq_false_iff (r : QRect) :
    r.isEmpty = false ↔ r.x1 ≤ r.x2 ∧ r.y1 ≤ r.y2 := by
  simp [isEmpty]

theorem isEmpty_eq_true_iff (r : QRect) :
    r.isEmpty = true ↔ r.x2 < r.x1 ∨ r.y2 < r.y1 := by
  simp [isEmpty]

theorem not_covers_of_isEmpty {r : QRect} (h : r.isEmpty = true) (p : QPoint) :
    ¬ r.covers p := by
  rw [isEmpty_eq_true_iff] at h
  unfold covers
  omega

theorem covers_topLeft {r : QRect} (h : r.isEmpty = false) : r.covers r.topLeft := by
  rw [isEmpty_eq_false_iff] at h
  simp only [covers, topLeft]
  omega

theorem covers_null (p : QPoint) : ¬ null.covers p := by
  simp only [covers, null]
  omega

theorem covers_translated (r : QRect) (d p : QPoint) :
    (r.translated d).covers p ↔ r.covers (p.add d.neg) := by
  simp only [covers, translated, QPoint.add, QPoint.neg]
  constructor <;> intro h <;> omega

/-- The result of `operator&` lies inside a right operand that is not inverted. -/
theorem covers_right_of_covers_intersected {a b : QRect} (hb : b.nonInverted) {p : QPoint}
    (h : (a.intersected b).covers p) : b.covers p := by
  unfold nonInverted at hb
  have hx : ¬ (b.x2 - b.x1 + 1 < 0) := by omega
  have hy : ¬ (b.y2 - b.y1 + 1 < 0) := by omega
  unfold intersected at h
  simp only [hx, hy, if_false] at h
  split_ifs at h <;>
    first
    | exact absurd h (covers_null p)
    | (simp only [covers] at h ⊢; omega)

/-- On rectangles that are not inverted `operator&` is the intersection of the pixel
sets. -/
theorem covers_intersected {a b : QRect} (ha : a.nonInverted) (hb : b.nonInverted)
    (p : QPoint) : (a.intersected b).covers p ↔ a.covers p ∧ b.covers p := by
  unfold nonInverted at ha hb
  have hax : ¬ (a.x2 - a.x1 + 1 < 0) := by omega
  have hay : ¬ (a.y2 - a.y1 + 1 < 0) := by omega
  have hbx : ¬ (b.x2 - b.x1 + 1 < 0) := by omega
  have hby : ¬ (b.y2 - b.y1 + 1 < 0) := by omega
  unfold intersected
  simp only [hax, hay, hbx, hby, if_false]
  split_ifs with c0 c1 c2
  · simp only [isNull, Bool.or_eq_true, Bool.and_eq_true, beq_iff_eq] at c0
    simp only [covers, null]
    omega
  · simp only [Bool.or_eq_true, decide_eq_true_eq] at c1
    simp only [covers, null]
    omega
  · simp only [Bool.or_eq_true, decide_eq_true_eq] at c2
    simp only [covers, null]
    omega
  · simp only [Bool.or_eq_true, decide_eq_true_eq] at c1 c2
    simp only [covers]
    omega

theorem isEmpty_of_mem_minus {r h q : QRect} (hq : q ∈ r.minus h) : q.isEmpty = false := by
  unfold minus at hq
  rw [List.mem_filter] at hq
  simpa using hq.2

/-- The pieces of `r.minus h` cover exactly the pixels of `r` outside `h`. -/
theorem covers_minus (r h : QRect) (p : QPoint) :
    (∃ q ∈ r.minus h, q.covers p) ↔ r.covers p ∧ ¬ h.covers p := by
  unfold minus
  constructor
  · rintro ⟨q, hq, hp⟩
    rw [List.mem_filter] at hq
    obtain ⟨hq, -⟩ := hq
    simp only [List.mem_cons, List.mem_singleton, List.not_mem_nil, or_false] at hq
    rcases hq with rfl | rfl | rfl | rfl <;> simp only [covers] at hp ⊢ <;> omega
  · rintro ⟨hr, hh⟩
    simp only [covers] at hr hh
    by_cases c1 : p.y < h.y1
    · refine ⟨⟨r.x1, r.y1, r.x2, min r.y2 (h.y1 - 1)⟩, ?_, ?_⟩
      · rw [List.mem_filter]
        refine ⟨by simp, ?_⟩
        simp only [Bool.not_eq_true', isEmpty_eq_false_iff]
        omega
      · simp only [covers]; omega
    · by_cases c2 : h.y2 < p.y
      · refine ⟨⟨r.x1, max r.y1 (h.y2 + 1), r.x2, r.y2⟩, ?_, ?_⟩
        · rw [List.mem_filter]
          refine ⟨by simp, ?_⟩
          simp only [Bool.not_eq_true', isEmpty_eq_false_iff]
          omega
        · simp only [covers]; omega
      · by_cases c3 : p.x < h.x1
        · refine ⟨⟨r.x1, max r.y1 h.y1, min r.x2 (h.x1 - 1), min r.y2 h.y2⟩, ?_, ?_⟩
          · rw [List.mem_filter]
            refine ⟨by simp, ?_⟩
            simp only [Bool.not_eq_true', isEmpty_eq_false_iff]
            omega
          · simp only [covers]; omega
        · refine ⟨⟨max r.x1 (h.x2 + 1), max r.y1 h.y1, r.x2, min r.y2 h.y2⟩, ?_, ?_⟩
          · rw [List.mem_filter]
            refine ⟨by simp, ?_⟩
            simp only [Bool.not_eq_true', isEmpty_eq_false_iff]
            omega
          · simp only [covers]; omega

end QRect

namespace QRegion

theorem contains_translated (R : QRegion) (d p : QPoint) :
    (R.translated d).contains p ↔ R.contains (p.add d.neg) := by
  simp only [contains, translated, List.mem_map]
  constructor
  · rintro ⟨r, ⟨q, hq, rfl⟩, hp⟩
    exact ⟨q, hq, (QRect.covers_translated q d p).1 hp⟩
  · rintro ⟨q, hq, hp⟩
    exact ⟨q.translated d, ⟨q, hq, rfl⟩, (QRect.covers_translated q d p).2 hp⟩

/-- Pixels of `QRegion( g ) - QRegion( h )`. -/
theorem contains_ofRect_subtracted (g h : QRect) (p : QPoint) :
    ((ofRect g).subtracted (ofRect h)).contains p ↔ g.covers p ∧ ¬ h.covers p := by
  unfold ofRect subtracted contains
  by_cases hg : g.isEmpty = true <;> by_cases hh : h.isEmpty = true
  · simp [hg, hh, QRect.not_covers_of_isEmpty hg p]
  · simp [hg, hh, QRect.not_covers_of_isEmpty hg p]
  · simp [hg, hh, QRect.not_covers_of_isEmpty hh p]
  · have := QRect.covers_minus g h p
    simpa [hg, hh] using this

/-- The region `QRegion( g ) - QRegion( h )` is empty exactly when it has no pixel. -/
theorem isEmpty_ofRect_subtracted (g h : QRect) :
    ((ofRect g).subtracted (ofRect h)).isEmpty = true ↔ ∀ p, g.covers p → h.covers p := by
  constructor
  · intro he p hp
    by_contra hn
    have hc := (contains_ofRect_subtracted g h p).2 ⟨hp, hn⟩
    obtain ⟨r, hr, -⟩ := hc
    simp only [isEmpty, List.isEmpty_iff] at he
    rw [he] at hr
    exact absurd hr (List.not_mem_nil r)
  · intro hall
    by_contra hne
    have hne2 : ((ofRect g).subtracted (ofRect h)).rects ≠ [] := by
      simpa [isEmpty, List.isEmpty_iff] using hne
    obtain ⟨r, hr⟩ := List.exists_mem_of_ne_nil _ hne2
    have hre : r.isEmpty = false := by
      unfold ofRect subtracted at hr
      by_cases hg : g.isEmpty = true <;> by_cases hh : h.isEmpty = true
      · simp [hg, hh] at hr
      · simp [hg, hh] at hr
      · simp [hg, hh] at hr
        subst hr
        simpa using hg
      · simp [hg, hh] at hr
        exact QRect.isEmpty_of_mem_minus hr
    have hc : ((ofRect g).subtracted (ofRect h)).contains r.topLeft :=
      ⟨r, hr, QRect.covers_topLeft hre⟩
    have := (contains_ofRect_subtracted g h r.topLeft).1 hc
    exact this.2 (hall _ this.1)

theorem isEmpty_ofRect_subtracted_of_isEmpty {g : QRect} (h : QRect) (hg : g.isEmpty = true) :
    ((ofRect g).subtracted (ofRect h)).isEmpty = true := by
  rw [isEmpty_ofRect_subtracted]
  intro p hp
  exact absurd hp (QRect.not_covers_of_isEmpty hg p)

end QRegion

/-! ## Effect of `updateGeometry` on the shadow widget -/

theorem QRect.ofSize_toNat {r : QRect} (h : r.isEmpty = false) :
    QRect.ofSize r.x1 r.y1 (r.width.toNat : Nat) (r.height.toNat : Nat) = r := by
  rw [QRect.isEmpty_eq_false_iff] at h
  cases r with
  | mk a b c d =>
    simp only [QRect.ofSize, QRect.width, QRect.height, QRect.mk.injEq] at h ⊢
    have e1 : (((c - a + 1).toNat : Nat) : Int) = c - a + 1 := Int.toNat_of_nonneg (by omega)
    have e2 : (((d - b + 1).toNat : Nat) : Int) = d - b + 1 := Int.toNat_of_nonneg (by omega)
    rw [e1, e2]
    refine ⟨trivial, trivial, ?_, ?_⟩ <;> omega

namespace Widget

theorem rect_nonInverted (w : Widget) : w.rect.nonInverted := by
  simp only [rect, QRect.ofSize, QRect.nonInverted]
  omega

theorem frameGeometry_nonInverted (w : Widget) : w.frameGeometry.nonInverted := by
  simp only [frameGeometry, geometry, QRect.ofSize, QRect.nonInverted]
  omega

end Widget

namespace MdiWindowShadow

theorem locals_geometry_isEmpty_of_mask (m : StyleMetrics) (σ : State) (self w : Nat)
    (h : (locals m σ self w).mask.isEmpty = false) :
    (locals m σ self w).geometry.isEmpty = false := by
  by_contra hc
  have hc2 : (locals m σ self w).geometry.isEmpty = true := by simpa using hc
  have := QRegion.isEmpty_ofRect_subtracted_of_isEmpty
    ((locals m σ self w).hole.adjusted 2 2 (-2) (-2)) hc2
  have e : (locals m σ self w).mask =
      (QRegion.ofRect (locals m σ self w).geometry).subtracted
        (QRegion.ofRect ((locals m σ self w).hole.adjusted 2 2 (-2) (-2))) := rfl
  rw [e, this] at h
  exact absurd h (by decide)

/-- Record of the shadow after `updateGeometry` when the mask is empty: only hidden, and
the rendering rectangle stored. -/
theorem updateGeometry_self_of_isEmpty (m : StyleMetrics) (σ : State) (self w : Nat)
    (h : (σ.widgets self)._widget = some w)
    (he : (locals m σ self w).mask.isEmpty = true) :
    (updateGeometry m σ self).widgets self =
      { σ.widgets self with
        visible := false,
        _shadowTilesRect := (locals m σ self w).shadowTilesRect.translated
          (locals m σ self w).geometry.topLeft.neg } := by
  simp [updateGeometry, h, he, hideWidget, State.modify]

/-- Record of the shadow after `updateGeometry` when the mask is not empty. -/
theorem updateGeometry_self_of_not_isEmpty (m : StyleMetrics) (σ : State) (self w : Nat)
    (h : (σ.widgets self)._widget = some w)
    (he : (locals m σ self w).mask.isEmpty = false) :
    (updateGeometry m σ self).widgets self =
      { σ.widgets self with
        visible := true,
        x := (locals m σ self w).geometry.x1,
        y := (locals m σ self w).geometry.y1,
        width := (locals m σ self w).geometry.width.toNat,
        height := (locals m σ self w).geometry.height.toNat,
        mask := some ((locals m σ self w).mask.translated
          (locals m σ self w).geometry.topLeft.neg),
        _shadowTilesRect := (locals m σ self w).shadowTilesRect.translated
          (locals m σ self w).geometry.topLeft.neg } := by
  simp [updateGeometry, h, he, showWidget, setMask, setGeometry, State.modify]

theorem updateGeometry_geometry_of_not_isEmpty (m : StyleMetrics) (σ : State) (self w : Nat)
    (h : (σ.widgets self)._widget = some w)
    (he : (locals m σ self w).mask.isEmpty = false) :
    ((updateGeometry m σ self).widgets self).geometry = (locals m σ self w).geometry := by
  have hg := locals_geometry_isEmpty_of_mask m σ self w he
  rw [updateGeometry_self_of_not_isEmpty m σ self w h he]
  exact QRect.ofSize_toNat hg

end MdiWindowShadow

/-! ## Lists: moving an item -/

theorem get?_append_length (a : List Nat) (x : Nat) (b : List Nat) :
    (a ++ x :: b).get? a.length = some x := by
  induction a with
  | nil => rfl
  | cons y a ih => simpa using ih

theorem eraseIdx_append_length (a : List Nat) (x : Nat) (b : List Nat) :
    (a ++ x :: b).eraseIdx a.length = a ++ b := by
  induction a with
  | nil => rfl
  | cons y a ih => simpa using ih

theorem insertIdx_append_length (a b : List Nat) (x : Nat) :
    (a ++ b).insertIdx a.length x = a ++ x :: b := by
  induction a with
  | nil => simp
  | cons y a ih => simpa [List.insertIdx_succ_cons] using ih

theorem perm_cons_eraseIdx {l : List Nat} {f a : Nat} (h : l.get? f = some a) :
    (a :: l.eraseIdx f).Perm l := by
  induction l generalizing f with
  | nil => simp at h
  | cons y l ih =>
    cases f with
    | zero =>
      simp at h
      subst h
      simp
    | succ f =>
      simp at h
      have := @ih f (by simpa using h)
      simp only [List.eraseIdx_cons_succ]
      exact (List.Perm.swap y a _).trans (List.Perm.cons y this)

theorem qlistMove_perm (l : List Nat) (f t : Nat) (ht : f < l.length → t ≤ l.length - 1) :
    (qlistMove l f t).Perm l := by
  unfold qlistMove
  cases h : l.get? f with
  | none => exact List.Perm.refl _
  | some a =>
    have hf : f < l.length := by
      by_contra hc
      have := List.get?_eq_none.2 (Nat.le_of_not_lt hc)
      rw [this] at h
      exact absurd h (by simp)
    have hlen : t ≤ (l.eraseIdx f).length := by
      rw [List.length_eraseIdx, if_pos hf]
      exact ht hf
    exact (List.perm_insertIdx a _ hlen).trans (perm_cons_eraseIdx h)

/-- Moving `self` to the place computed by `stackUnder` puts it immediately before `w`. -/
theorem directlyBelow_of_move (l : List Nat) (self w : Nat) (hs : self ∈ l) (hw : w ∈ l)
    (hne : self ≠ w) :
    DirectlyBelow
      (if l.indexOf self ≠ (if l.indexOf self < l.indexOf w then l.indexOf w - 1 else l.indexOf w)
        then qlistMove l (l.indexOf self)
          (if l.indexOf self < l.indexOf w then l.indexOf w - 1 else l.indexOf w)
        else l) self w := by
  obtain ⟨a, bs, rfl, hsa⟩ := List.eq_append_cons_of_mem hs
  have hfs : (a ++ self :: bs).indexOf self = a.length := by
    rw [List.indexOf_append_of_not_mem hsa, List.indexOf_cons_self, Nat.add_zero]
  rw [hfs]
  by_cases hwa : w ∈ a
  · -- `w` comes first
    obtain ⟨a1, a2, rfl, hwa1⟩ := List.eq_append_cons_of_mem hwa
    have hfw : (a1 ++ w :: a2 ++ self :: bs).indexOf w = a1.length := by
      rw [List.append_assoc, List.indexOf_append_of_not_mem hwa1]
      simp
    rw [hfw]
    have hlen : (a1 ++ w :: a2).length = a1.length + (a2.length + 1) := by simp
    have hnlt : ¬ (a1 ++ w :: a2).length < a1.length := by omega
    have hneq : (a1 ++ w :: a2).length ≠ a1.length := by omega
    simp only [hnlt, if_false, hneq, ne_eq, not_false_eq_true, if_true]
    refine ⟨a1, a2 ++ bs, ?_⟩
    unfold qlistMove
    rw [get?_append_length, eraseIdx_append_length]
    simp only
    have : a1 ++ w :: a2 ++ bs = a1 ++ (w :: (a2 ++ bs)) := by simp
    rw [this, insertIdx_append_length]
  · -- `self` comes first
    have hwb : w ∈ bs := by
      simp only [List.mem_append, List.mem_cons] at hw
      rcases hw with h | h | h
      · exact absurd h hwa
      · exact absurd h.symm hne
      · exact h
    obtain ⟨b1, b2, rfl, hwb1⟩ := List.eq_append_cons_of_mem hwb
    have hfw : (a ++ self :: (b1 ++ w :: b2)).indexOf w = a.length + (b1.length + 1) := by
      rw [List.indexOf_append_of_not_mem hwa]
      have : self :: (b1 ++ w :: b2) = (self :: b1) ++ w :: b2 := by simp
      rw [this, List.indexOf_append_of_not_mem (by simp [hwb1, Ne.symm hne])]
      simp
    rw [hfw]
    have hlt : a.length < a.length + (b1.length + 1) := by omega
    simp only [hlt, if_true]
    by_cases hb : b1 = []
    · subst hb
      simp only [List.length_nil, zero_add, Nat.add_sub_cancel, ne_eq, not_true_eq_false,
        if_false, List.nil_append]
      exact ⟨a, b2, rfl⟩
    · have hpos : 0 < b1.length := List.length_pos.2 hb
      have hneq : a.length ≠ a.length + (b1.length + 1) - 1 := by omega
      simp only [hneq, ne_eq, not_false_eq_true, if_true]
      refine ⟨a ++ b1, b2, ?_⟩
      unfold qlistMove
      rw [get?_append_length, eraseIdx_append_length]
      simp only
      have e1 : a ++ (b1 ++ w :: b2) = (a ++ b1) ++ w :: b2 := by simp
      have e2 : a.length + (b1.length + 1) - 1 = (a ++ b1).length := by simp
      rw [e1, e2, insertIdx_append_length]

/-! ## States with the same tree -/

namespace SameTree

theorem same_refl (σ : State) : SameTree σ σ :=
  ⟨rfl, fun _ => rfl, fun _ => rfl, fun _ => rfl, fun _ => rfl⟩

theorem same_trans {σ τ υ : State} (h1 : SameTree σ τ) (h2 : SameTree τ υ) : SameTree σ υ :=
  ⟨h2.nextId.trans h1.nextId, fun i => (h2.cls i).trans (h1.cls i),
    fun i => (h2.parent i).trans (h1.parent i), fun i => (h2.tracked i).trans (h1.tracked i),
    fun i => (h2.children i).trans (h1.children i)⟩

theorem toPerm {σ τ : State} (h : SameTree σ τ) : TreePerm σ τ :=
  ⟨h.nextId, h.cls, h.parent, h.tracked, fun i => by rw [h.children i]⟩

/-- Changing attributes other than class, parent, children and tracked widget keeps the
tree. -/
theorem modify (σ : State) (i : Nat) (f : Widget → Widget)
    (hf : ∀ w, (f w).cls = w.cls ∧ (f w).parent = w.parent ∧ (f w).children = w.children ∧
      (f w)._widget = w._widget) : SameTree σ (σ.modify i f) := by
  refine ⟨rfl, ?_, ?_, ?_, ?_⟩ <;> intro j <;> simp only [State.modify] <;> split
  · exact (hf _).1
  · rfl
  · exact (hf _).2.1
  · rfl
  · exact (hf _).2.2.2
  · rfl
  · exact (hf _).2.2.1
  · rfl

theorem of_widgets_eq {σ τ : State} (hw : τ.widgets = σ.widgets) (hn : τ.nextId = σ.nextId) :
    SameTree σ τ :=
  ⟨hn, fun i => by rw [hw], fun i => by rw [hw], fun i => by rw [hw], fun i => by rw [hw]⟩

end SameTree

namespace TreePerm

theorem perm_refl (σ : State) : TreePerm σ σ := (SameTree.same_refl σ).toPerm

theorem perm_trans {σ τ υ : State} (h1 : TreePerm σ τ) (h2 : TreePerm τ υ) : TreePerm σ υ :=
  ⟨h2.nextId.trans h1.nextId, fun i => (h2.cls i).trans (h1.cls i),
    fun i => (h2.parent i).trans (h1.parent i), fun i => (h2.tracked i).trans (h1.tracked i),
    fun i => (h2.children i).trans (h1.children i)⟩

theorem isShadowOf_eq {σ τ : State} (h : TreePerm σ τ) (w : Nat) :
    isShadowOf τ w = isShadowOf σ w := by
  funext c
  simp only [isShadowOf, MdiWindowShadow.widget, h.cls c, h.tracked c]

theorem shadowsOf_perm {σ τ : State} (h : TreePerm σ τ) (w : Nat) :
    (shadowsOf τ w).Perm (shadowsOf σ w) := by
  unfold shadowsOf
  rw [h.parent w, h.isShadowOf_eq w]
  cases (σ.widgets w).parent with
  | none => exact List.Perm.refl _
  | some p => exact (h.children p).filter _

theorem wellFormed {σ τ : State} (h : TreePerm σ τ) (hw : WellFormedTree σ) :
    WellFormedTree τ := by
  refine ⟨?_, ?_, ?_, ?_⟩
  · intro i c hc
    rw [h.nextId]
    exact hw.children_lt i c ((h.children i).mem_iff.1 hc)
  · intro i c hc
    rw [h.parent c]
    exact hw.parent_of_child i c ((h.children i).mem_iff.1 hc)
  · intro i p hp
    rw [h.parent i] at hp
    exact (h.children p).mem_iff.2 (hw.child_of_parent i p hp)
  · intro i
    exact (h.children i).nodup_iff.2 (hw.nodup i)

theorem inv_of_perm {σ τ : State} (h : TreePerm σ τ) (hi : Inv σ) : Inv τ := by
  refine ⟨h.wellFormed hi.tree, ?_, ?_⟩
  · intro i t hc ht
    rw [h.cls i] at hc
    rw [h.tracked i] at ht
    rw [h.nextId]
    exact hi.tracked_lt i t hc ht
  · intro w
    rw [(h.shadowsOf_perm w).length_eq]
    exact hi.atMostOne w

end TreePerm

theorem SameTree.shadowsOf_eq {σ τ : State} (h : SameTree σ τ) (w : Nat) :
    shadowsOf τ w = shadowsOf σ w := by
  unfold shadowsOf
  rw [h.parent w, h.toPerm.isShadowOf_eq w]
  cases (σ.widgets w).parent with
  | none => rfl
  | some p => simp only [h.children p]

theorem find?_eq_head?_filter (q : Nat → Bool) (l : List Nat) :
    l.find? q = (l.filter q).head? := by
  induction l with
  | nil => rfl
  | cons c l ih =>
    rw [List.find?_cons, List.filter_cons]
    cases hc : q c
    · simp
    · simp

theorem findShadow_eq_head? (σ : State) (w : Nat) :
    MdiWindowShadowFactory.findShadow σ w = (shadowsOf σ w).head? := by
  unfold MdiWindowShadowFactory.findShadow shadowsOf
  cases (σ.widgets w).parent with
  | none => rfl
  | some p =>
    simp only
    have hfun : (fun child => (σ.widgets child).cls.isMdiWindowShadow &&
        decide (MdiWindowShadow.widget σ child = some w)) = isShadowOf σ w := rfl
    rw [hfun]
    exact find?_eq_head?_filter _ _

theorem SameTree.findShadow_eq {σ τ : State} (h : SameTree σ τ) (w : Nat) :
    MdiWindowShadowFactory.findShadow τ w = MdiWindowShadowFactory.findShadow σ w := by
  rw [findShadow_eq_head?, findShadow_eq_head?, h.shadowsOf_eq w]

/-- What `findShadow` returns is a child of the object's parent, a shadow, and tracks the
object. -/
theorem findShadow_some {σ : State} {w sh : Nat}
    (h : MdiWindowShadowFactory.findShadow σ w = some sh) :
    ∃ p, (σ.widgets w).parent = some p ∧ sh ∈ (σ.widgets p).children ∧
      (σ.widgets sh).cls = WidgetClass.MdiWindowShadow ∧ (σ.widgets sh)._widget = some w := by
  unfold MdiWindowShadowFactory.findShadow at h
  cases hp : (σ.widgets w).parent with
  | none => simp [hp] at h
  | some p =>
    simp only [hp] at h
    refine ⟨p, rfl, List.mem_of_find?_eq_some h, ?_⟩
    have := List.find?_some h
    simp only [Bool.and_eq_true, decide_eq_true_eq, MdiWindowShadow.widget] at this
    refine ⟨?_, this.2⟩
    cases hc : (σ.widgets sh).cls <;> simp [hc, WidgetClass.isMdiWindowShadow] at this ⊢

theorem mem_shadowsOf {σ : State} {w sh : Nat} :
    sh ∈ shadowsOf σ w ↔
      ∃ p, (σ.widgets w).parent = some p ∧ sh ∈ (σ.widgets p).children ∧
        (σ.widgets sh).cls = WidgetClass.MdiWindowShadow ∧ (σ.widgets sh)._widget = some w := by
  unfold shadowsOf
  cases hp : (σ.widgets w).parent with
  | none => simp
  | some p =>
    simp only [List.mem_filter, isShadowOf, Bool.and_eq_true, decide_eq_true_eq,
      MdiWindowShadow.widget, Option.some.injEq, exists_eq_left']
    constructor
    · rintro ⟨h1, h2, h3⟩
      refine ⟨h1, ?_, h3⟩
      cases hc : (σ.widgets sh).cls <;> simp [hc, WidgetClass.isMdiWindowShadow] at h2 ⊢
    · rintro ⟨h1, h2, h3⟩
      exact ⟨h1, by simp [h2, WidgetClass.isMdiWindowShadow], h3⟩

/-- With at most one shadow, `findShadow` returns it. -/
theorem findShadow_of_mem_shadowsOf {σ : State} {w sh : Nat}
    (hone : (shadowsOf σ w).length ≤ 1) (h : sh ∈ shadowsOf σ w) :
    MdiWindowShadowFactory.findShadow σ w = some sh := by
  rw [findShadow_eq_head?]
  cases hl : shadowsOf σ w with
  | nil => rw [hl] at h; simp at h
  | cons a l =>
    rw [hl] at h hone
    cases l with
    | nil => simp at h; simp [h]
    | cons b l => simp at hone

/-! ## Effect of the operations on the tree -/

theorem hideWidget_sameTree (σ : State) (i : Nat) : SameTree σ (hideWidget σ i) :=
  SameTree.modify σ i _ (fun _ => ⟨rfl, rfl, rfl, rfl⟩)

theorem showWidget_sameTree (σ : State) (i : Nat) : SameTree σ (showWidget σ i) :=
  SameTree.modify σ i _ (fun _ => ⟨rfl, rfl, rfl, rfl⟩)

theorem setGeometry_sameTree (σ : State) (i : Nat) (r : QRect) :
    SameTree σ (setGeometry σ i r) :=
  SameTree.modify σ i _ (fun _ => ⟨rfl, rfl, rfl, rfl⟩)

theorem setMask_sameTree (σ : State) (i : Nat) (R : QRegion) : SameTree σ (setMask σ i R) :=
  SameTree.modify σ i _ (fun _ => ⟨rfl, rfl, rfl, rfl⟩)

theorem deleteLater_sameTree (σ : State) (i : Nat) : SameTree σ (deleteLater σ i) :=
  SameTree.of_widgets_eq rfl rfl

theorem updateGeometry_sameTree (m : StyleMetrics) (σ : State) (self : Nat) :
    SameTree σ (MdiWindowShadow.updateGeometry m σ self) := by
  unfold MdiWindowShadow.updateGeometry
  cases (σ.widgets self)._widget with
  | none => exact SameTree.same_refl σ
  | some w =>
    simp only
    refine SameTree.same_trans ?_ (SameTree.modify _ self _ (fun _ => ⟨rfl, rfl, rfl, rfl⟩))
    split
    · exact hideWidget_sameTree σ self
    · exact ((setGeometry_sameTree σ self _).same_trans (setMask_sameTree _ self _)).same_trans
        (showWidget_sameTree _ self)

theorem TreePerm.modify_children (σ : State) (p : Nat) (g : List Nat → List Nat)
    (hg : (g (σ.widgets p).children).Perm (σ.widgets p).children) :
    TreePerm σ (σ.modify p (fun pw => { pw with children := g pw.children })) := by
  refine ⟨rfl, ?_, ?_, ?_, ?_⟩ <;> intro j <;> simp only [State.modify] <;>
    by_cases hj : j = p
  · rw [if_pos hj]
  · rw [if_neg hj]
  · rw [if_pos hj]
  · rw [if_neg hj]
  · rw [if_pos hj]
  · rw [if_neg hj]
  · rw [if_pos hj]
    subst hj
    exact hg
  · rw [if_neg hj]

theorem stackUnder_treePerm (σ : State) (self w : Nat) : TreePerm σ (stackUnder σ self w) := by
  unfold stackUnder
  simp only
  by_cases h1 : (σ.widgets self).parent ≠ (σ.widgets w).parent ∨ self = w
  · rw [if_pos h1]
    exact TreePerm.perm_refl σ
  · rw [if_neg h1]
    cases hp : (σ.widgets self).parent with
    | none => exact TreePerm.perm_refl σ
    | some p =>
      simp only
      have hle := @List.indexOf_le_length _ _ w (σ.widgets p).children
      split_ifs <;>
        first
        | exact TreePerm.perm_refl σ
        | (apply TreePerm.modify_children σ p (fun l => qlistMove l _ _)
           apply qlistMove_perm
           intro hf
           omega)

theorem updateZOrder_treePerm (σ : State) (self : Nat) :
    TreePerm σ (MdiWindowShadow.updateZOrder σ self) := by
  unfold MdiWindowShadow.updateZOrder
  cases (σ.widgets self)._widget with
  | none => exact TreePerm.perm_refl σ
  | some w => exact stackUnder_treePerm σ self w

namespace MdiWindowShadowFactory

theorem updateShadowZOrder_treePerm (σ : State) (object : Nat) :
    TreePerm σ (updateShadowZOrder σ object) := by
  unfold updateShadowZOrder
  cases findShadow σ object with
  | none => exact TreePerm.perm_refl σ
  | some sh => exact updateZOrder_treePerm σ sh

theorem updateShadowGeometry_sameTree (m : StyleMetrics) (σ : State) (object : Nat) :
    SameTree σ (updateShadowGeometry m σ object) := by
  unfold updateShadowGeometry
  cases findShadow σ object with
  | none => exact SameTree.same_refl σ
  | some sh => exact updateGeometry_sameTree m σ sh

theorem hideShadows_sameTree (σ : State) (object : Nat) :
    SameTree σ (hideShadows σ object) := by
  unfold hideShadows
  cases findShadow σ object with
  | none => exact SameTree.same_refl σ
  | some sh => exact hideWidget_sameTree σ sh

theorem removeShadow_sameTree (σ : State) (object : Nat) :
    SameTree σ (removeShadow σ object) := by
  unfold removeShadow
  cases findShadow σ object with
  | none => exact SameTree.same_refl σ
  | some sh => exact (hideWidget_sameTree σ sh).same_trans (deleteLater_sameTree _ sh)

end MdiWindowShadowFactory

/-! ## Installing a shadow -/

namespace MdiWindowShadowFactory

theorem installShadow_of_parent_none {σ : State} {w : Nat}
    (hp : (σ.widgets w).parent = none) : installShadow σ w = σ := by
  simp [installShadow, hp]

theorem installShadow_of_found {σ : State} {w sh : Nat}
    (hf : findShadow σ w = some sh) : installShadow σ w = σ := by
  unfold installShadow
  cases (σ.widgets w).parent with
  | none => rfl
  | some p => simp [hf]

/-- The state after `installShadow` created a shadow: the new object takes the next
identifier, tracks the object, and is appended to the children of the object's parent. -/
theorem installShadow_of_not_found {σ : State} {w p : Nat}
    (hp : (σ.widgets w).parent = some p) (hf : findShadow σ w = none) :
    installShadow σ w =
      { σ with
        widgets := fun j =>
          if j = σ.nextId then { MdiWindowShadow.fresh p with _widget := some w }
          else if j = p then
            { σ.widgets j with children := (σ.widgets j).children ++ [σ.nextId] }
          else σ.widgets j,
        nextId := σ.nextId + 1 } := by
  simp only [installShadow, hp, hf, Option.isSome_none, Bool.false_eq_true, if_false,
    MdiWindowShadow.setWidget, MdiWindowShadow.new, State.modify]
  congr 1
  funext j
  by_cases hj : j = σ.nextId
  · simp [hj]
  · simp [hj]

theorem shadowsOf_eq_nil_of_findShadow {σ : State} {w : Nat} (hf : findShadow σ w = none) :
    shadowsOf σ w = [] := by
  rw [findShadow_eq_head?] at hf
  cases hl : shadowsOf σ w with
  | nil => rfl
  | cons a l => rw [hl] at hf; simp at hf

/-- Field by field: what `installShadow` leaves of the old widgets when it creates a
shadow. -/
theorem installShadow_old {σ : State} {w p : Nat}
    (hp : (σ.widgets w).parent = some p) (hf : findShadow σ w = none)
    (j : Nat) (hj : j ≠ σ.nextId) :
    ((installShadow σ w).widgets j).cls = (σ.widgets j).cls ∧
    ((installShadow σ w).widgets j).parent = (σ.widgets j).parent ∧
    ((installShadow σ w).widgets j)._widget = (σ.widgets j)._widget ∧
    ((installShadow σ w).widgets j).children =
      (if j = p then (σ.widgets j).children ++ [σ.nextId] else (σ.widgets j).children) := by
  rw [installShadow_of_not_found hp hf]
  simp only [hj, if_false]
  by_cases hjp : j = p
  · simp only [hjp, if_true, and_self]
  · simp only [hjp, if_false, and_self]

theorem installShadow_new {σ : State} {w p : Nat}
    (hp : (σ.widgets w).parent = some p) (hf : findShadow σ w = none) :
    (installShadow σ w).nextId = σ.nextId + 1 ∧
    (installShadow σ w).widgets σ.nextId =
      { MdiWindowShadow.fresh p with _widget := some w } := by
  rw [installShadow_of_not_found hp hf]
  simp

theorem installShadow_inv {σ : State} (hi : Inv σ) (w : Nat) : Inv (installShadow σ w) := by
  cases hp : (σ.widgets w).parent with
  | none => rw [installShadow_of_parent_none hp]; exact hi
  | some p =>
    cases hf : findShadow σ w with
    | some sh => rw [installShadow_of_found hf]; exact hi
    | none =>
      have hold := installShadow_old hp hf
      obtain ⟨hnext, hnew⟩ := installShadow_new hp hf
      have hncls : ((installShadow σ w).widgets σ.nextId).cls = WidgetClass.MdiWindowShadow := by
        rw [hnew]; rfl
      have hnpar : ((installShadow σ w).widgets σ.nextId).parent = some p := by
        rw [hnew]; rfl
      have hntr : ((installShadow σ w).widgets σ.nextId)._widget = some w := by
        rw [hnew]
      have hnch : ((installShadow σ w).widgets σ.nextId).children = [] := by
        rw [hnew]; rfl
      have hwp : w ∈ (σ.widgets p).children := hi.tree.child_of_parent w p hp
      have hlt := hi.tree.children_lt p w hwp
      have hpn : p ≠ σ.nextId := by omega
      have hwn : w ≠ σ.nextId := by omega
      have hnl : ∀ i, σ.nextId ∉ (σ.widgets i).children := by
        intro i hc
        have := (hi.tree.children_lt i _ hc).2
        omega
      have hnil : shadowsOf σ w = [] := shadowsOf_eq_nil_of_findShadow hf
      have hmem : ∀ i c, i ≠ σ.nextId → c ∈ ((installShadow σ w).widgets i).children →
          c ∈ (σ.widgets i).children ∨ (i = p ∧ c = σ.nextId) := by
        intro i c hin hc
        rw [(hold i hin).2.2.2] at hc
        by_cases hip : i = p
        · rw [if_pos hip, List.mem_append, List.mem_singleton] at hc
          rcases hc with hc | hc
          · exact Or.inl hc
          · exact Or.inr ⟨hip, hc⟩
        · rw [if_neg hip] at hc
          exact Or.inl hc
      have hmem2 : ∀ i c, i ≠ σ.nextId → c ∈ (σ.widgets i).children →
          c ∈ ((installShadow σ w).widgets i).children := by
        intro i c hin hc
        rw [(hold i hin).2.2.2]
        split
        · exact List.mem_append_left _ hc
        · exact hc
      refine ⟨⟨?_, ?_, ?_, ?_⟩, ?_, ?_⟩
      · -- identifiers stay below the next one
        intro i c hc
        rw [hnext]
        by_cases hin : i = σ.nextId
        · rw [hin, hnch] at hc
          exact absurd hc (List.not_mem_nil c)
        · rcases hmem i c hin hc with h | ⟨h1, h2⟩
          · have := hi.tree.children_lt i c h
            omega
          · omega
      · -- a listed child points back to its parent
        intro i c hc
        by_cases hin : i = σ.nextId
        · rw [hin, hnch] at hc
          exact absurd hc (List.not_mem_nil c)
        · rcases hmem i c hin hc with h | ⟨h1, h2⟩
          · have hcn : c ≠ σ.nextId := fun e => hnl i (e ▸ h)
            rw [(hold c hcn).2.1]
            exact hi.tree.parent_of_child i c h
          · rw [h2, hnpar, h1]
      · -- a widget is listed by its parent
        intro i q hq
        by_cases hin : i = σ.nextId
        · rw [hin, hnpar] at hq
          cases hq
          rw [(hold p hpn).2.2.2, if_pos rfl, hin]
          simp
        · rw [(hold i hin).2.1] at hq
          have hiq := hi.tree.child_of_parent i q hq
          have hqn : q ≠ σ.nextId := by
            have := (hi.tree.children_lt q i hiq).1
            omega
          exact hmem2 q i hqn hiq
      · -- no child is listed twice
        intro i
        by_cases hin : i = σ.nextId
        · rw [hin, hnch]
          exact List.nodup_nil
        · rw [(hold i hin).2.2.2]
          split
          · rw [List.nodup_append]
            refine ⟨hi.tree.nodup i, List.nodup_singleton _, ?_⟩
            intro a ha hb
            rw [List.mem_singleton] at hb
            subst hb
            exact hnl i ha
          · exact hi.tree.nodup i
      · -- every shadow tracks an older widget
        intro i t hc ht
        rw [hnext]
        by_cases hin : i = σ.nextId
        · rw [hin, hntr] at ht
          cases ht
          omega
        · rw [(hold i hin).1] at hc
          rw [(hold i hin).2.2.1] at ht
          have := hi.tracked_lt i t hc ht
          omega
      · -- at most one shadow per widget
        intro v
        have hpred : ∀ c, c ≠ σ.nextId →
            isShadowOf (installShadow σ w) v c = isShadowOf σ v c := by
          intro c hc
          simp only [isShadowOf, MdiWindowShadow.widget, (hold c hc).1, (hold c hc).2.2.1]
        have hfilter : ∀ i, (σ.widgets i).children.filter (isShadowOf (installShadow σ w) v)
            = (σ.widgets i).children.filter (isShadowOf σ v) := by
          intro i
          apply List.filter_congr
          intro c hc
          exact hpred c (fun e => hnl i (e ▸ hc))
        have hpredn : isShadowOf (installShadow σ w) v σ.nextId = decide (w = v) := by
          simp [isShadowOf, MdiWindowShadow.widget, hncls, hntr, WidgetClass.isMdiWindowShadow]
        by_cases hvn : v = σ.nextId
        · -- the new shadow itself is tracked by nothing
          have hempty : shadowsOf (installShadow σ w) v = [] := by
            unfold shadowsOf
            rw [hvn, hnpar]
            simp only
            rw [List.filter_eq_nil_iff]
            intro c hc hs
            rw [← hvn] at hs
            by_cases hcn : c = σ.nextId
            · rw [hcn, hpredn] at hs
              simp only [decide_eq_true_eq] at hs
              omega
            · rw [hpred c hcn] at hs
              simp only [isShadowOf, Bool.and_eq_true, decide_eq_true_eq,
                MdiWindowShadow.widget] at hs
              have hcc : (σ.widgets c).cls = WidgetClass.MdiWindowShadow := by
                cases hcls : (σ.widgets c).cls <;>
                  simp [hcls, WidgetClass.isMdiWindowShadow] at hs ⊢
              have := hi.tracked_lt c v hcc hs.2
              omega
          rw [hempty]
          exact Nat.zero_le _
        · unfold shadowsOf
          rw [(hold v hvn).2.1]
          cases hvp : (σ.widgets v).parent with
          | none => exact Nat.zero_le _
          | some q =>
            simp only
            have hvq := hi.tree.child_of_parent v q hvp
            have hqn : q ≠ σ.nextId := by
              have := (hi.tree.children_lt q v hvq).1
              omega
            have hold1 := hi.atMostOne v
            unfold shadowsOf at hold1
            rw [hvp] at hold1
            simp only at hold1
            rw [(hold q hqn).2.2.2]
            by_cases hqp : q = p
            · rw [if_pos hqp, List.filter_append, hfilter q, List.length_append]
              by_cases hwv : w = v
              · subst hwv
                subst hqp
                unfold shadowsOf at hnil
                rw [hp] at hnil
                simp only at hnil
                rw [hnil]
                simp [List.filter, hpredn]
              · have : [σ.nextId].filter (isShadowOf (installShadow σ w) v) = [] := by
                  simp [List.filter, hpredn, hwv]
                rw [this]
                simpa using hold1
            · rw [if_neg hqp, hfilter q]
              exact hold1

end MdiWindowShadowFactory

/-! ## Carrying out a deferred deletion -/

theorem deliverDeferredDelete_fields (σ : State) (d j : Nat) :
    ((deliverDeferredDelete σ d).widgets j).cls = (σ.widgets j).cls ∧
    ((deliverDeferredDelete σ d).widgets j)._widget = (σ.widgets j)._widget ∧
    ((deliverDeferredDelete σ d).widgets j).parent =
      (if j = d then none else (σ.widgets j).parent) ∧
    ((deliverDeferredDelete σ d).widgets j).children =
      (if (σ.widgets d).parent = some j then (σ.widgets j).children.erase d
        else (σ.widgets j).children) := by
  unfold deliverDeferredDelete
  cases hp : (σ.widgets d).parent with
  | none =>
    by_cases hjd : j = d
    · simp [State.modify, hjd]
    · simp [State.modify, hjd]
  | some p =>
    by_cases hjd : j = d <;> by_cases hjp : j = p
    · subst hjd; subst hjp; simp [State.modify]
    · have : ¬ p = j := fun e => hjp e.symm
      subst hjd; simp [State.modify, hjp, this]
    · subst hjp; simp [State.modify, hjd]
    · have : ¬ p = j := fun e => hjp e.symm
      simp [State.modify, hjd, hjp, this]

theorem deliverDeferredDelete_inv {σ : State} (hi : Inv σ) (d : Nat) :
    Inv (deliverDeferredDelete σ d) := by
  have hF := deliverDeferredDelete_fields σ d
  have hn : (deliverDeferredDelete σ d).nextId = σ.nextId := by
    unfold deliverDeferredDelete
    cases (σ.widgets d).parent <;> rfl
  have hsub : ∀ j, ((deliverDeferredDelete σ d).widgets j).children.Sublist
      (σ.widgets j).children := by
    intro j
    rw [(hF j).2.2.2]
    split
    · exact List.erase_sublist d _
    · exact List.Sublist.refl _
  refine ⟨⟨?_, ?_, ?_, ?_⟩, ?_, ?_⟩
  · intro i c hc
    rw [hn]
    exact hi.tree.children_lt i c ((hsub i).subset hc)
  · intro i c hc
    have hc0 := (hsub i).subset hc
    have hpc := hi.tree.parent_of_child i c hc0
    rw [(hF c).2.2.1]
    by_cases hcd : c = d
    · exfalso
      subst hcd
      rw [(hF i).2.2.2, if_pos hpc] at hc
      exact ((hi.tree.nodup i).mem_erase_iff.1 hc).1 rfl
    · rw [if_neg hcd]
      exact hpc
  · intro i q hq
    rw [(hF i).2.2.1] at hq
    by_cases hid : i = d
    · rw [if_pos hid] at hq
      exact absurd hq (by simp)
    · rw [if_neg hid] at hq
      have := hi.tree.child_of_parent i q hq
      rw [(hF q).2.2.2]
      split
      · exact (List.mem_erase_of_ne hid).2 this
      · exact this
  · intro i
    exact (hsub i).nodup (hi.tree.nodup i)
  · intro i t hc ht
    rw [(hF i).1] at hc
    rw [(hF i).2.1] at ht
    rw [hn]
    exact hi.tracked_lt i t hc ht
  · intro v
    have hpred : isShadowOf (deliverDeferredDelete σ d) v = isShadowOf σ v := by
      funext c
      simp only [isShadowOf, MdiWindowShadow.widget, (hF c).1, (hF c).2.1]
    have hold := hi.atMostOne v
    unfold shadowsOf at hold ⊢
    rw [(hF v).2.2.1, hpred]
    by_cases hvd : v = d
    · rw [if_pos hvd]
      exact Nat.zero_le _
    · rw [if_neg hvd]
      cases hvp : (σ.widgets v).parent with
      | none => exact Nat.zero_le _
      | some q =>
        rw [hvp] at hold
        simp only at hold ⊢
        exact le_trans ((hsub q).filter _).length_le hold

/-! ## The invariant holds in every reachable state -/

theorem EmptyFactory.inv_of_empty {σ : State} (h : EmptyFactory σ) : Inv σ := by
  refine ⟨h.tree, ?_, ?_⟩
  · intro i t hc
    exact absurd hc (h.no_shadow i)
  · intro w
    unfold shadowsOf
    cases (σ.widgets w).parent with
    | none => exact Nat.zero_le _
    | some p =>
      simp only
      have : (σ.widgets p).children.filter (isShadowOf σ w) = [] := by
        rw [List.filter_eq_nil_iff]
        intro c _ hs
        simp only [isShadowOf, Bool.and_eq_true] at hs
        have := h.no_shadow c
        cases hcls : (σ.widgets c).cls <;> simp [hcls, WidgetClass.isMdiWindowShadow] at hs this
      rw [this]
      exact Nat.zero_le _

theorem Inv.of_same_widgets {σ τ : State} (hi : Inv σ) (hw : τ.widgets = σ.widgets)
    (hn : τ.nextId = σ.nextId) : Inv τ :=
  (SameTree.of_widgets_eq hw hn).toPerm.inv_of_perm hi

namespace MdiWindowShadowFactory

theorem show_sequence_inv (m : StyleMetrics) {σ : State} (hi : Inv σ) (w : Nat) :
    Inv (updateShadowZOrder (updateShadowGeometry m (installShadow σ w) w) w) :=
  (updateShadowZOrder_treePerm _ w).inv_of_perm
    ((updateShadowGeometry_sameTree m _ w).toPerm.inv_of_perm (installShadow_inv hi w))

theorem registerWidget_inv (m : StyleMetrics) {σ : State} (hi : Inv σ) (w : Nat) :
    Inv (registerWidget m σ w).2 := by
  unfold registerWidget
  split_ifs with h1 h2 h3
  · exact hi
  · exact hi
  · exact hi
  · have h0 : Inv { σ with _registeredWidgets := σ._registeredWidgets.insert w } :=
      Inv.of_same_widgets hi rfl rfl
    have h2 : Inv (if (σ.widgets w).visible = true then
        updateShadowZOrder (updateShadowGeometry m (installShadow
          { σ with _registeredWidgets := σ._registeredWidgets.insert w } w) w) w
        else { σ with _registeredWidgets := σ._registeredWidgets.insert w }) := by
      split
      · exact show_sequence_inv m h0 w
      · exact h0
    exact Inv.of_same_widgets h2 rfl rfl

theorem unregisterWidget_inv {σ : State} (hi : Inv σ) (w : Nat) :
    Inv (unregisterWidget σ w) := by
  unfold unregisterWidget
  split_ifs
  · exact hi
  · have h0 : Inv { σ with
        eventFilters := σ.eventFilters.filter (fun j => j != w),
        _registeredWidgets := σ._registeredWidgets.filter (fun j => j != w) } :=
      Inv.of_same_widgets hi rfl rfl
    exact (removeShadow_sameTree _ w).toPerm.inv_of_perm h0

theorem eventFilter_inv (m : StyleMetrics) {σ : State} (hi : Inv σ) (w : Nat) (e : QEvent) :
    Inv (eventFilter m σ w e).2 := by
  unfold eventFilter
  cases e <;> simp only
  · exact (updateShadowZOrder_treePerm σ w).inv_of_perm hi
  · split_ifs
    · have h0 : Inv { σ with
          _registeredWidgets := σ._registeredWidgets.filter (fun j => j != w) } :=
        Inv.of_same_widgets hi rfl rfl
      exact (removeShadow_sameTree _ w).toPerm.inv_of_perm h0
    · exact hi
  · exact (hideShadows_sameTree σ w).toPerm.inv_of_perm hi
  · exact show_sequence_inv m hi w
  · exact (updateShadowGeometry_sameTree m σ w).toPerm.inv_of_perm hi
  · exact (updateShadowGeometry_sameTree m σ w).toPerm.inv_of_perm hi
  · exact hi

theorem widgetDestroyed_inv {σ : State} (hi : Inv σ) (w : Nat) :
    Inv (widgetDestroyed σ w) :=
  Inv.of_same_widgets hi rfl rfl

theorem call_inv (m : StyleMetrics) {σ : State} (hi : Inv σ) (c : Call) :
    Inv (call m σ c) := by
  cases c with
  | registerWidget w => exact registerWidget_inv m hi w
  | unregisterWidget w => exact unregisterWidget_inv hi w
  | eventFilter w e => exact eventFilter_inv m hi w e
  | widgetDestroyed w => exact widgetDestroyed_inv hi w

end MdiWindowShadowFactory

theorem Reachable.inv_of_reachable {m : StyleMetrics} {σ : State} (h : Reachable m σ) : Inv σ := by
  induction h with
  | init σ h0 => exact h0.inv_of_empty
  | call σ c _ ih => exact MdiWindowShadowFactory.call_inv m ih c
  | deferredDelete σ d _ _ ih => exact deliverDeferredDelete_inv ih d
  | toolkit σ τ _ hperm _ _ _ _ ih => exact hperm.inv_of_perm ih

/-! ## The registered set is only changed by the factory's own bookkeeping -/

theorem updateGeometry_registered (m : StyleMetrics) (σ : State) (self : Nat) :
    (MdiWindowShadow.updateGeometry m σ self)._registeredWidgets = σ._registeredWidgets := by
  unfold MdiWindowShadow.updateGeometry
  cases (σ.widgets self)._widget with
  | none => rfl
  | some w =>
    simp only
    split <;> rfl

theorem stackUnder_registered (σ : State) (self w : Nat) :
    (stackUnder σ self w)._registeredWidgets = σ._registeredWidgets := by
  unfold stackUnder
  simp only
  cases (σ.widgets self).parent with
  | none => split <;> rfl
  | some p =>
    simp only
    split_ifs <;> rfl

theorem updateZOrder_registered (σ : State) (self : Nat) :
    (MdiWindowShadow.updateZOrder σ self)._registeredWidgets = σ._registeredWidgets := by
  unfold MdiWindowShadow.updateZOrder
  cases (σ.widgets self)._widget with
  | none => rfl
  | some w => exact stackUnder_registered σ self w

namespace MdiWindowShadowFactory

theorem installShadow_registered (σ : State) (w : Nat) :
    (installShadow σ w)._registeredWidgets = σ._registeredWidgets := by
  unfold installShadow
  cases (σ.widgets w).parent with
  | none => rfl
  | some p => simp only; split <;> rfl

theorem updateShadowGeometry_registered (m : StyleMetrics) (σ : State) (w : Nat) :
    (updateShadowGeometry m σ w)._registeredWidgets = σ._registeredWidgets := by
  unfold updateShadowGeometry
  cases findShadow σ w with
  | none => rfl
  | some sh => exact updateGeometry_registered m σ sh

theorem updateShadowZOrder_registered (σ : State) (w : Nat) :
    (updateShadowZOrder σ w)._registeredWidgets = σ._registeredWidgets := by
  unfold updateShadowZOrder
  cases findShadow σ w with
  | none => rfl
  | some sh => exact updateZOrder_registered σ sh

/-- Guard of `registerWidget`: the three tests that make it return false. -/
theorem registerWidget_of_rejected (m : StyleMetrics) (σ : State) (w : Nat)
    (h : (σ.widgets w).cls.isMdiSubWindow = false ∨
      (∃ i, (σ.widgets w).inner = some i ∧ (σ.widgets i).cls.inheritsKMainWindow = true) ∨
      w ∈ σ._registeredWidgets) :
    registerWidget m σ w = (false, σ) := by
  unfold registerWidget
  rcases h with h | ⟨i, h1, h2⟩ | h
  · simp [h]
  · simp [h1, h2]
  · split_ifs <;> first | rfl | simp_all [isRegistered]

/-- The state `registerWidget` returns when none of the three tests rejects the widget. -/
theorem registerWidget_of_accepted (m : StyleMetrics) (σ : State) (w : Nat)
    (h1 : (σ.widgets w).cls.isMdiSubWindow = true)
    (h2 : ∀ i, (σ.widgets w).inner = some i → (σ.widgets i).cls.inheritsKMainWindow = false)
    (h3 : w ∉ σ._registeredWidgets) :
    registerWidget m σ w =
      (true,
        { (if (σ.widgets w).visible = true then
            updateShadowZOrder (updateShadowGeometry m (installShadow
              { σ with _registeredWidgets := σ._registeredWidgets.insert w } w) w) w
          else { σ with _registeredWidgets := σ._registeredWidgets.insert w }) with
          eventFilters := (if (σ.widgets w).visible = true then
              updateShadowZOrder (updateShadowGeometry m (installShadow
                { σ with _registeredWidgets := σ._registeredWidgets.insert w } w) w) w
            else { σ with _registeredWidgets := σ._registeredWidgets.insert w }).eventFilters.insert w,
          destroyedConnections := w :: (if (σ.widgets w).visible = true then
              updateShadowZOrder (updateShadowGeometry m (installShadow
                { σ with _registeredWidgets := σ._registeredWidgets.insert w } w) w) w
            else { σ with _registeredWidgets := σ._registeredWidgets.insert w }).destroyedConnections }) := by
  unfold registerWidget
  have h2b : (match (σ.widgets w).inner with
      | some i => (σ.widgets i).cls.inheritsKMainWindow
      | none => false) = false := by
    cases hin : (σ.widgets w).inner with
    | none => rfl
    | some i => exact h2 i hin
  simp [h1, h2b, isRegistered, h3]

end MdiWindowShadowFactory

/-! ## Restacking -/

theorem stackUnder_children (σ : State) (self w p : Nat)
    (hps : (σ.widgets self).parent = some p) (hpw : (σ.widgets w).parent = some p)
    (hne : self ≠ w) :
    ((stackUnder σ self w).widgets p).children =
      (if (σ.widgets p).children.indexOf self ≠
          (if (σ.widgets p).children.indexOf self < (σ.widgets p).children.indexOf w
            then (σ.widgets p).children.indexOf w - 1 else (σ.widgets p).children.indexOf w)
        then qlistMove (σ.widgets p).children ((σ.widgets p).children.indexOf self)
          (if (σ.widgets p).children.indexOf self < (σ.widgets p).children.indexOf w
            then (σ.widgets p).children.indexOf w - 1 else (σ.widgets p).children.indexOf w)
        else (σ.widgets p).children) := by
  unfold stackUnder
  simp only [hps, hpw, ne_eq, not_true_eq_false, hne, or_self, if_false]
  split_ifs <;> simp [State.modify]

/-- After `stackUnder` in a consistent tree, for two different widgets with the same
parent, the first is immediately below the second. -/
theorem stackUnder_directlyBelow {σ : State} (hwf : WellFormedTree σ) (self w p : Nat)
    (hps : (σ.widgets self).parent = some p) (hpw : (σ.widgets w).parent = some p)
    (hne : self ≠ w) :
    DirectlyBelow ((stackUnder σ self w).widgets p).children self w := by
  rw [stackUnder_children σ self w p hps hpw hne]
  exact directlyBelow_of_move _ self w (hwf.child_of_parent self p hps)
    (hwf.child_of_parent w p hpw) hne

/-! ## The shadow after installing, repositioning and restacking -/

namespace MdiWindowShadowFactory

theorem installShadow_findShadow {σ : State} (hi : Inv σ) {w p : Nat}
    (hp : (σ.widgets w).parent = some p) :
    ((installShadow σ w).widgets w).parent = some p ∧
    ∃ sh, findShadow (installShadow σ w) w = some sh := by
  cases hf : findShadow σ w with
  | some sh =>
    rw [installShadow_of_found hf]
    exact ⟨hp, sh, hf⟩
  | none =>
    have hwp : w ∈ (σ.widgets p).children := hi.tree.child_of_parent w p hp
    have hlt := hi.tree.children_lt p w hwp
    have hpn : p ≠ σ.nextId := by omega
    have hwn : w ≠ σ.nextId := by omega
    obtain ⟨_, hnew⟩ := installShadow_new hp hf
    have hpar : ((installShadow σ w).widgets w).parent = some p := by
      rw [(installShadow_old hp hf w hwn).2.1, hp]
    refine ⟨hpar, σ.nextId, ?_⟩
    apply findShadow_of_mem_shadowsOf ((installShadow_inv hi w).atMostOne w)
    rw [mem_shadowsOf]
    refine ⟨p, hpar, ?_, ?_, ?_⟩
    · rw [(installShadow_old hp hf p hpn).2.2.2, if_pos rfl]
      simp
    · rw [hnew]; rfl
    · rw [hnew]

theorem updateShadowGeometry_of_found (m : StyleMetrics) {σ : State} {w sh : Nat}
    (hf : findShadow σ w = some sh) :
    updateShadowGeometry m σ w = MdiWindowShadow.updateGeometry m σ sh := by
  simp [updateShadowGeometry, hf]

theorem removeShadow_of_found {σ : State} {w sh : Nat} (hf : findShadow σ w = some sh) :
    removeShadow σ w = deleteLater (hideWidget σ sh) sh := by
  simp [removeShadow, hf]

theorem removeShadow_of_not_found {σ : State} {w : Nat} (hf : findShadow σ w = none) :
    removeShadow σ w = σ := by
  simp [removeShadow, hf]

/-- After `updateShadowZOrder` in a state satisfying the invariant, the shadow of the
object is still its shadow and lies immediately below it. -/
theorem updateShadowZOrder_directlyBelow {σ : State} (hi : Inv σ) {w sh : Nat}
    (hf : findShadow σ w = some sh) :
    ∃ p, (σ.widgets w).parent = some p ∧
      ((updateShadowZOrder σ w).widgets w).parent = some p ∧
      sh ∈ ((updateShadowZOrder σ w).widgets p).children ∧
      ((updateShadowZOrder σ w).widgets sh).cls = WidgetClass.MdiWindowShadow ∧
      ((updateShadowZOrder σ w).widgets sh)._widget = some w ∧
      DirectlyBelow ((updateShadowZOrder σ w).widgets p).children sh w := by
  obtain ⟨p, hp, hmem, hcls, htr⟩ := findShadow_some hf
  have hperm := updateShadowZOrder_treePerm σ w
  refine ⟨p, hp, ?_, ?_, ?_, ?_, ?_⟩
  · rw [hperm.parent, hp]
  · exact (hperm.children p).mem_iff.2 hmem
  · rw [hperm.cls, hcls]
  · rw [hperm.tracked, htr]
  · have hne : sh ≠ w := fun e => (hi.tracked_lt sh w hcls htr).2 e.symm
    have hps : (σ.widgets sh).parent = some p := hi.tree.parent_of_child p sh hmem
    have : updateShadowZOrder σ w = stackUnder σ sh w := by
      simp [updateShadowZOrder, hf, MdiWindowShadow.updateZOrder, htr]
    rw [this]
    exact stackUnder_directlyBelow hi.tree sh w p hps hp hne

/-- The sequence `installShadow`, `updateShadowGeometry`, `updateShadowZOrder` run for an
object with a parent leaves the object with a shadow among the parent's children, placed
immediately below the object. -/
theorem show_sequence_shadow (m : StyleMetrics) {σ : State} (hi : Inv σ) {w p : Nat}
    (hp : (σ.widgets w).parent = some p) :
    ∃ sh,
      sh ∈ ((updateShadowZOrder (updateShadowGeometry m (installShadow σ w) w) w).widgets
        p).children ∧
      ((updateShadowZOrder (updateShadowGeometry m (installShadow σ w) w) w).widgets sh).cls
        = WidgetClass.MdiWindowShadow ∧
      ((updateShadowZOrder (updateShadowGeometry m (installShadow σ w) w) w).widgets sh)._widget
        = some w ∧
      DirectlyBelow
        ((updateShadowZOrder (updateShadowGeometry m (installShadow σ w) w) w).widgets
          p).children sh w := by
  obtain ⟨hpar1, sh, hf1⟩ := installShadow_findShadow hi hp
  have hi1 := installShadow_inv hi w
  have hs2 := updateShadowGeometry_sameTree m (installShadow σ w) w
  have hi2 : Inv (updateShadowGeometry m (installShadow σ w) w) := hs2.toPerm.inv_of_perm hi1
  have hf2 : findShadow (updateShadowGeometry m (installShadow σ w) w) w = some sh := by
    rw [hs2.findShadow_eq, hf1]
  obtain ⟨q, hq, -, h1, h2, h3, h4⟩ := updateShadowZOrder_directlyBelow hi2 hf2
  have hqp : q = p := by
    rw [hs2.parent, hpar1] at hq
    exact (Option.some.inj hq).symm
  subst hqp
  exact ⟨sh, h1, h2, h3, h4⟩

end MdiWindowShadowFactory

/-! ## The geometry of the shadow widget -/

/-- C6: in `updateGeometry` with a tracked widget, the mask is the clipped shadow
rectangle minus the interior (the clipped frame geometry shrunk by 2 on each side); the
shadow ends hidden exactly when the mask is empty, which is exactly when every pixel of
the clipped shadow rectangle lies in the interior; otherwise its geometry is the clipped
shadow rectangle, its mask the difference moved by minus the geometry's top-left, and it
is shown. -/
theorem updateGeometry_mask_and_visibility (m : StyleMetrics) (σ : State) (self w : Nat)
    (h : (σ.widgets self)._widget = some w) :
    (∀ p, (MdiWindowShadow.locals m σ self w).mask.contains p ↔
        (MdiWindowShadow.locals m σ self w).geometry.covers p ∧
        ¬ ((MdiWindowShadow.locals m σ self w).hole.adjusted 2 2 (-2) (-2)).covers p) ∧
    ((MdiWindowShadow.locals m σ self w).mask.isEmpty = true ↔
        ∀ p, (MdiWindowShadow.locals m σ self w).geometry.covers p →
          ((MdiWindowShadow.locals m σ self w).hole.adjusted 2 2 (-2) (-2)).covers p) ∧
    (((MdiWindowShadow.updateGeometry m σ self).widgets self).visible = false ↔
        (MdiWindowShadow.locals m σ self w).mask.isEmpty = true) ∧
    ((MdiWindowShadow.locals m σ self w).mask.isEmpty = true →
        ((MdiWindowShadow.updateGeometry m σ self).widgets self).geometry
          = (σ.widgets self).geometry ∧
        ((MdiWindowShadow.updateGeometry m σ self).widgets self).mask
          = (σ.widgets self).mask) ∧
    ((MdiWindowShadow.locals m σ self w).mask.isEmpty = false →
        ((MdiWindowShadow.updateGeometry m σ self).widgets self).visible = true ∧
        ((MdiWindowShadow.updateGeometry m σ self).widgets self).geometry
          = (MdiWindowShadow.locals m σ self w).geometry ∧
        ((MdiWindowShadow.updateGeometry m σ self).widgets self).mask
          = some ((MdiWindowShadow.locals m σ self w).mask.translated
              (MdiWindowShadow.locals m σ self w).geometry.topLeft.neg) ∧
        ∀ p, ((MdiWindowShadow.locals m σ self w).mask.translated
              (MdiWindowShadow.locals m σ self w).geometry.topLeft.neg).contains p ↔
          (MdiWindowShadow.locals m σ self w).mask.contains
            (p.add (MdiWindowShadow.locals m σ self w).geometry.topLeft)) ∧
    ((MdiWindowShadow.locals m σ self w).geometry =
        match MdiWindowShadow.viewportParent σ self with
        | some v =>
          (MdiWindowShadow.locals m σ self w).shadowTilesRect.intersected (σ.widgets v).rect
        | none => (MdiWindowShadow.locals m σ self w).shadowTilesRect) ∧
    ((MdiWindowShadow.locals m σ self w).hole =
        match MdiWindowShadow.viewportParent σ self with
        | some v => (σ.widgets w).frameGeometry.intersected (σ.widgets v).rect
        | none => (σ.widgets w).frameGeometry) := by
  have hmask : (MdiWindowShadow.locals m σ self w).mask =
      (QRegion.ofRect (MdiWindowShadow.locals m σ self w).geometry).subtracted
        (QRegion.ofRect ((MdiWindowShadow.locals m σ self w).hole.adjusted 2 2 (-2) (-2))) :=
    rfl
  refine ⟨?_, ?_, ?_, ?_, ?_, ?_, ?_⟩
  · intro p
    rw [hmask]
    exact QRegion.contains_ofRect_subtracted _ _ p
  · rw [hmask]
    exact QRegion.isEmpty_ofRect_subtracted _ _
  · cases he : (MdiWindowShadow.locals m σ self w).mask.isEmpty
    · rw [MdiWindowShadow.updateGeometry_self_of_not_isEmpty m σ self w h he]
      simp
    · rw [MdiWindowShadow.updateGeometry_self_of_isEmpty m σ self w h he]
      simp
  · intro he
    rw [MdiWindowShadow.updateGeometry_self_of_isEmpty m σ self w h he]
    exact ⟨rfl, rfl⟩
  · intro he
    refine ⟨?_, MdiWindowShadow.updateGeometry_geometry_of_not_isEmpty m σ self w h he, ?_, ?_⟩
    · rw [MdiWindowShadow.updateGeometry_self_of_not_isEmpty m σ self w h he]
    · rw [MdiWindowShadow.updateGeometry_self_of_not_isEmpty m σ self w h he]
    · intro p
      rw [QRegion.contains_translated]
      simp [QPoint.neg]
  · cases hv : MdiWindowShadow.viewportParent σ self <;>
      simp [MdiWindowShadow.locals, computeShadowGeometry, hv]
  · cases hv : MdiWindowShadow.viewportParent σ self <;>
      simp [MdiWindowShadow.locals, computeShadowGeometry, hv]

/-- Witness for C6 on the example: the shadow 4 of sub-window 2 has a non-empty mask, and
`updateGeometry` leaves it shown. -/
theorem updateGeometry_mask_and_visibility_witness :
    (exampleShadowed.widgets 4)._widget = some 2 ∧
    (MdiWindowShadow.locals exampleMetrics exampleShadowed 4 2).mask.isEmpty = false ∧
    (((MdiWindowShadow.updateGeometry exampleMetrics exampleShadowed 4).widgets 4).visible
        = false ↔
      (MdiWindowShadow.locals exampleMetrics exampleShadowed 4 2).mask.isEmpty = true) :=
  ⟨by decide, by decide,
    (updateGeometry_mask_and_visibility exampleMetrics exampleShadowed 4 2 (by decide)).2.2.1⟩

/-- C7: the unclipped shadow rectangle computed by `updateGeometry` is the tracked
widget's frame geometry extended by `s - o` on the left, right and bottom and by
`(s - o) - max (s/2) (2*o)` on the top, for shadow size `s` and overlap `o`; the division
truncates, which for `s ≥ 0` is the usual integer division, and the offset
`max (s/2) (2*o)` is at least `2*o`. This rectangle, moved into the shadow widget's
coordinates, is what `updateGeometry` stores in `_shadowTilesRect`. -/
theorem updateGeometry_shadow_extents (m : StyleMetrics) (σ : State) (self w : Nat) :
    (MdiWindowShadow.locals m σ self w).shadowTilesRect =
      ⟨(σ.widgets w).frameGeometry.x1 - (m.shadowSize - m.Shadow_Overlap),
       (σ.widgets w).frameGeometry.y1 -
         ((m.shadowSize - m.Shadow_Overlap) - max (m.shadowSize.tdiv 2) (2 * m.Shadow_Overlap)),
       (σ.widgets w).frameGeometry.x2 + (m.shadowSize - m.Shadow_Overlap),
       (σ.widgets w).frameGeometry.y2 + (m.shadowSize - m.Shadow_Overlap)⟩ ∧
    shadowOffset m = max (m.shadowSize.tdiv 2) (2 * m.Shadow_Overlap) ∧
    2 * m.Shadow_Overlap ≤ shadowOffset m ∧
    (0 ≤ m.shadowSize → m.shadowSize.tdiv 2 = m.shadowSize / 2) ∧
    ((σ.widgets self)._widget = some w →
      ((MdiWindowShadow.updateGeometry m σ self).widgets self)._shadowTilesRect =
        (⟨(σ.widgets w).frameGeometry.x1 - (m.shadowSize - m.Shadow_Overlap),
          (σ.widgets w).frameGeometry.y1 -
            ((m.shadowSize - m.Shadow_Overlap)
              - max (m.shadowSize.tdiv 2) (2 * m.Shadow_Overlap)),
          (σ.widgets w).frameGeometry.x2 + (m.shadowSize - m.Shadow_Overlap),
          (σ.widgets w).frameGeometry.y2 + (m.shadowSize - m.Shadow_Overlap)⟩ : QRect).translated
          (MdiWindowShadow.locals m σ self w).geometry.topLeft.neg) := by
  have ho : shadowOffset m = max (m.shadowSize.tdiv 2) (2 * m.Shadow_Overlap) := by
    simp only [shadowOffset, mul_comm]
  have hrect : (MdiWindowShadow.locals m σ self w).shadowTilesRect =
      ⟨(σ.widgets w).frameGeometry.x1 - (m.shadowSize - m.Shadow_Overlap),
       (σ.widgets w).frameGeometry.y1 -
         ((m.shadowSize - m.Shadow_Overlap) - max (m.shadowSize.tdiv 2) (2 * m.Shadow_Overlap)),
       (σ.widgets w).frameGeometry.x2 + (m.shadowSize - m.Shadow_Overlap),
       (σ.widgets w).frameGeometry.y2 + (m.shadowSize - m.Shadow_Overlap)⟩ := by
    simp only [MdiWindowShadow.locals, computeShadowGeometry, QRect.adjusted, ← ho,
      QRect.mk.injEq]
    and_intros <;> trivial
  refine ⟨hrect, ho, ?_, ?_, ?_⟩
  · rw [ho]
    exact le_max_right _ _
  · intro hs
    exact Int.tdiv_eq_ediv hs (by decide)
  · intro h
    rw [← hrect]
    cases he : (MdiWindowShadow.locals m σ self w).mask.isEmpty
    · rw [MdiWindowShadow.updateGeometry_self_of_not_isEmpty m σ self w h he]
    · rw [MdiWindowShadow.updateGeometry_self_of_isEmpty m σ self w h he]

/-- Witness for C7 on the example: for shadow size 16 and overlap 2 the unclipped
rectangle of the shadow of sub-window 2, whose frame is at (10,10) with size 100x50,
extends 14 to the left, right and bottom and 6 to the top. -/
theorem updateGeometry_shadow_extents_witness :
    (exampleShadowed.widgets 2).frameGeometry = ⟨10, 10, 109, 59⟩ ∧
    (MdiWindowShadow.locals exampleMetrics exampleShadowed 4 2).shadowTilesRect
      = ⟨-4, 4, 123, 73⟩ ∧
    exampleMetrics.shadowSize.tdiv 2 = exampleMetrics.shadowSize / 2 :=
  ⟨by decide, by decide,
    (updateGeometry_shadow_extents exampleMetrics exampleShadowed 4 2).2.2.2.1 (by decide)⟩

/-- C8: when `updateGeometry` finds a parent to clip against, the computed geometry is
the toolkit intersection of the unclipped shadow rectangle with that widget's rectangle,
no pixel of it lies outside that rectangle, and the hole is the frame geometry clipped
against the same rectangle; without a parent the geometry is the unclipped rectangle. The
widget clipped against is the viewport of the parent when the parent is a scroll area,
the viewport of the parent's parent when that is an MDI area and the parent is not, and
the parent itself otherwise. -/
theorem updateGeometry_clips_to_viewport (m : StyleMetrics) (σ : State) (self w : Nat)
    (h : (σ.widgets self)._widget = some w) :
    (∀ v, MdiWindowShadow.viewportParent σ self = some v →
      (MdiWindowShadow.locals m σ self w).geometry =
        (MdiWindowShadow.locals m σ self w).shadowTilesRect.intersected (σ.widgets v).rect ∧
      (∀ p, (MdiWindowShadow.locals m σ self w).geometry.covers p →
        (σ.widgets v).rect.covers p) ∧
      ((MdiWindowShadow.locals m σ self w).shadowTilesRect.nonInverted →
        ∀ p, (MdiWindowShadow.locals m σ self w).geometry.covers p ↔
          (MdiWindowShadow.locals m σ self w).shadowTilesRect.covers p ∧
          (σ.widgets v).rect.covers p) ∧
      (MdiWindowShadow.locals m σ self w).hole =
        (σ.widgets w).frameGeometry.intersected (σ.widgets v).rect ∧
      (∀ p, (MdiWindowShadow.locals m σ self w).hole.covers p ↔
        (σ.widgets w).frameGeometry.covers p ∧ (σ.widgets v).rect.covers p) ∧
      ((MdiWindowShadow.locals m σ self w).mask.isEmpty = false →
        ∀ p, ((MdiWindowShadow.updateGeometry m σ self).widgets self).geometry.covers p →
          (σ.widgets v).rect.covers p)) ∧
    (MdiWindowShadow.viewportParent σ self = none →
      (MdiWindowShadow.locals m σ self w).geometry =
        (MdiWindowShadow.locals m σ self w).shadowTilesRect ∧
      (MdiWindowShadow.locals m σ self w).hole = (σ.widgets w).frameGeometry) ∧
    ((σ.widgets self).parent = none → MdiWindowShadow.viewportParent σ self = none) ∧
    (∀ p, (σ.widgets self).parent = some p →
      MdiWindowShadow.viewportParent σ self =
        if (σ.widgets p).cls.isMdiArea then (σ.widgets p).viewport
        else
          match (σ.widgets p).parent with
          | some pp =>
            if (σ.widgets pp).cls.isMdiArea then (σ.widgets pp).viewport
            else if (σ.widgets p).cls.isAbstractScrollArea then (σ.widgets p).viewport
            else some p
          | none =>
            if (σ.widgets p).cls.isAbstractScrollArea then (σ.widgets p).viewport
            else some p) := by
  refine ⟨?_, ?_, ?_, ?_⟩
  · intro v hv
    have hgeo : (MdiWindowShadow.locals m σ self w).geometry =
        (MdiWindowShadow.locals m σ self w).shadowTilesRect.intersected (σ.widgets v).rect := by
      simp [MdiWindowShadow.locals, computeShadowGeometry, hv]
    have hhole : (MdiWindowShadow.locals m σ self w).hole =
        (σ.widgets w).frameGeometry.intersected (σ.widgets v).rect := by
      simp [MdiWindowShadow.locals, computeShadowGeometry, hv]
    have hin : ∀ p, (MdiWindowShadow.locals m σ self w).geometry.covers p →
        (σ.widgets v).rect.covers p := by
      intro p hp
      rw [hgeo] at hp
      exact QRect.covers_right_of_covers_intersected (Widget.rect_nonInverted _) hp
    refine ⟨hgeo, hin, ?_, hhole, ?_, ?_⟩
    · intro hni p
      rw [hgeo]
      exact QRect.covers_intersected hni (Widget.rect_nonInverted _) p
    · intro p
      rw [hhole]
      exact QRect.covers_intersected (Widget.frameGeometry_nonInverted _)
        (Widget.rect_nonInverted _) p
    · intro he p hp
      rw [MdiWindowShadow.updateGeometry_geometry_of_not_isEmpty m σ self w h he] at hp
      exact hin p hp
  · intro hv
    constructor <;> simp [MdiWindowShadow.locals, computeShadowGeometry, hv]
  · intro hp
    simp [MdiWindowShadow.viewportParent, hp]
  · intro p hp
    simp only [MdiWindowShadow.viewportParent, hp]
    cases hpp : (σ.widgets p).parent with
    | none =>
      cases h1 : (σ.widgets p).cls <;>
        simp [WidgetClass.isMdiArea, WidgetClass.isAbstractScrollArea, h1]
    | some pp =>
      cases h1 : (σ.widgets p).cls <;> cases h2 : (σ.widgets pp).cls <;>
        simp [WidgetClass.isMdiArea, WidgetClass.isAbstractScrollArea, hpp, h1, h2]

/-- Witness for C8 on the example: the shadow 4 is clipped against the viewport 1, and
its computed geometry has the unclipped rectangle's part left of the viewport cut off. -/
theorem updateGeometry_clips_to_viewport_witness :
    (exampleShadowed.widgets 4)._widget = some 2 ∧
    MdiWindowShadow.viewportParent exampleShadowed 4 = some 1 ∧
    (MdiWindowShadow.locals exampleMetrics exampleShadowed 4 2).shadowTilesRect
      = ⟨-4, 4, 123, 73⟩ ∧
    (MdiWindowShadow.locals exampleMetrics exampleShadowed 4 2).geometry = ⟨0, 4, 123, 73⟩ ∧
    (MdiWindowShadow.locals exampleMetrics exampleShadowed 4 2).geometry =
      (MdiWindowShadow.locals exampleMetrics exampleShadowed 4 2).shadowTilesRect.intersected
        (exampleShadowed.widgets 1).rect :=
  ⟨by decide, by decide, by decide, by decide,
    ((updateGeometry_clips_to_viewport exampleMetrics exampleShadowed 4 2 (by decide)).1 1
      (by decide)).1⟩

/-- C10: after `updateGeometry` with a tracked widget, the stored rendering rectangle
`_shadowTilesRect`, moved back by the top-left of the computed geometry, is the unclipped
shadow rectangle (the frame geometry extended by the shadow extents), whatever the
clipping; it has the unclipped rectangle's size, and when the computed geometry is the
unclipped rectangle (in particular without a parent) its top-left is the origin. -/
theorem updateGeometry_tiles_rect_unmoved (m : StyleMetrics) (σ : State) (self w : Nat)
    (h : (σ.widgets self)._widget = some w) :
    (((MdiWindowShadow.updateGeometry m σ self).widgets self)._shadowTilesRect.translated
        (MdiWindowShadow.locals m σ self w).geometry.topLeft =
      (σ.widgets w).frameGeometry.adjusted
        (-(m.shadowSize - m.Shadow_Overlap))
        (-((m.shadowSize - m.Shadow_Overlap) - shadowOffset m))
        (m.shadowSize - m.Shadow_Overlap) (m.shadowSize - m.Shadow_Overlap)) ∧
    (((MdiWindowShadow.updateGeometry m σ self).widgets self)._shadowTilesRect.width =
      (σ.widgets w).frameGeometry.width + 2 * (m.shadowSize - m.Shadow_Overlap)) ∧
    (((MdiWindowShadow.updateGeometry m σ self).widgets self)._shadowTilesRect.height =
      (σ.widgets w).frameGeometry.height + 2 * (m.shadowSize - m.Shadow_Overlap)
        - shadowOffset m) ∧
    ((MdiWindowShadow.locals m σ self w).geometry =
        (MdiWindowShadow.locals m σ self w).shadowTilesRect →
      ((MdiWindowShadow.updateGeometry m σ self).widgets self)._shadowTilesRect.topLeft
        = ⟨0, 0⟩) ∧
    (MdiWindowShadow.viewportParent σ self = none →
      ((MdiWindowShadow.updateGeometry m σ self).widgets self)._shadowTilesRect.topLeft
        = ⟨0, 0⟩) ∧
    ((MdiWindowShadow.locals m σ self w).mask.isEmpty = false →
      ((MdiWindowShadow.updateGeometry m σ self).widgets self)._shadowTilesRect.translated
          ((MdiWindowShadow.updateGeometry m σ self).widgets self).geometry.topLeft =
        (MdiWindowShadow.locals m σ self w).shadowTilesRect) := by
  have hst : ((MdiWindowShadow.updateGeometry m σ self).widgets self)._shadowTilesRect =
      (MdiWindowShadow.locals m σ self w).shadowTilesRect.translated
        (MdiWindowShadow.locals m σ self w).geometry.topLeft.neg := by
    cases he : (MdiWindowShadow.locals m σ self w).mask.isEmpty
    · rw [MdiWindowShadow.updateGeometry_self_of_not_isEmpty m σ self w h he]
    · rw [MdiWindowShadow.updateGeometry_self_of_isEmpty m σ self w h he]
  have hun : (MdiWindowShadow.locals m σ self w).shadowTilesRect =
      (σ.widgets w).frameGeometry.adjusted
        (-(m.shadowSize - m.Shadow_Overlap))
        (-((m.shadowSize - m.Shadow_Overlap) - shadowOffset m))
        (m.shadowSize - m.Shadow_Overlap) (m.shadowSize - m.Shadow_Overlap) := rfl
  have hback : ∀ (r : QRect) (d : QPoint), (r.translated d.neg).translated d = r := by
    intro r d
    cases r
    simp [QRect.translated, QPoint.neg]
  have horigin : (MdiWindowShadow.locals m σ self w).geometry =
        (MdiWindowShadow.locals m σ self w).shadowTilesRect →
      ((MdiWindowShadow.updateGeometry m σ self).widgets self)._shadowTilesRect.topLeft
        = ⟨0, 0⟩ := by
    intro hg
    rw [hst, hg]
    simp [QRect.translated, QRect.topLeft, QPoint.neg]
  refine ⟨?_, ?_, ?_, horigin, ?_, ?_⟩
  · rw [hst, hback, hun]
  · rw [hst, hun]
    simp only [QRect.translated, QRect.width, QRect.adjusted, QPoint.neg, QRect.topLeft]
    omega
  · rw [hst, hun]
    simp only [QRect.translated, QRect.height, QRect.adjusted, QPoint.neg, QRect.topLeft]
    omega
  · intro hv
    apply horigin
    simp [MdiWindowShadow.locals, computeShadowGeometry, hv]
  · intro he
    rw [MdiWindowShadow.updateGeometry_geometry_of_not_isEmpty m σ self w h he, hst, hback]

/-- Witness for C10 on the example: the shadow 4 is clipped on the left by 4 pixels, and
its rendering rectangle starts 4 pixels left of the shadow widget's origin. -/
theorem updateGeometry_tiles_rect_unmoved_witness :
    (exampleShadowed.widgets 4)._widget = some 2 ∧
    ((MdiWindowShadow.updateGeometry exampleMetrics exampleShadowed 4).widgets 4)._shadowTilesRect
      = ⟨-4, 0, 123, 69⟩ ∧
    ((MdiWindowShadow.updateGeometry exampleMetrics exampleShadowed 4).widgets 4)._shadowTilesRect.translated
        (MdiWindowShadow.locals exampleMetrics exampleShadowed 4 2).geometry.topLeft =
      (exampleShadowed.widgets 2).frameGeometry.adjusted
        (-(exampleMetrics.shadowSize - exampleMetrics.Shadow_Overlap))
        (-((exampleMetrics.shadowSize - exampleMetrics.Shadow_Overlap)
            - shadowOffset exampleMetrics))
        (exampleMetrics.shadowSize - exampleMetrics.Shadow_Overlap)
        (exampleMetrics.shadowSize - exampleMetrics.Shadow_Overlap) :=
  ⟨by decide, by decide,
    (updateGeometry_tiles_rect_unmoved exampleMetrics exampleShadowed 4 2 (by decide)).1⟩

/-! ## The example tree is an empty factory -/

theorem exampleTree_children (i : Nat) :
    (exampleTree.widgets i).children =
      if i = 0 then [1] else if i = 1 then [2, 3] else [] := by
  simp only [exampleTree]
  split_ifs <;> rfl

theorem exampleTree_parent (i : Nat) :
    (exampleTree.widgets i).parent =
      if i = 0 then none else if i = 1 then some 0 else if i = 2 then some 1
      else if i = 3 then some 1 else none := by
  simp only [exampleTree]
  split_ifs <;> rfl

theorem exampleTree_emptyFactory : EmptyFactory exampleTree := by
  refine ⟨⟨?_, ?_, ?_, ?_⟩, ?_, rfl, rfl, rfl, rfl⟩
  · intro i c hc
    rw [exampleTree_children] at hc
    have hn : exampleTree.nextId = 4 := rfl
    rw [hn]
    split_ifs at hc <;> simp at hc <;> omega
  · intro i c hc
    rw [exampleTree_children] at hc
    rw [exampleTree_parent]
    split_ifs at hc with h0 h1
    · simp at hc; subst hc; subst h0; rfl
    · simp at hc
      subst h1
      rcases hc with rfl | rfl <;> rfl
    · simp at hc
  · intro i p hp
    rw [exampleTree_parent] at hp
    rw [exampleTree_children]
    split_ifs at hp with h0 h1 h2 h3
    · simp at hp; subst hp; subst h1; simp
    · simp at hp; subst hp; subst h2; simp
    · simp at hp; subst hp; subst h3; simp
  · intro i
    rw [exampleTree_children]
    split_ifs <;> decide
  · intro i
    simp only [exampleTree]
    split_ifs <;> simp [Widget.blank]

theorem exampleShadowed_reachable : Reachable exampleMetrics exampleShadowed :=
  Reachable.call exampleTree (Call.registerWidget 2)
    (Reachable.init exampleTree exampleTree_emptyFactory)

/-! ## Claims about the factory -/

/-- C1: in every state reachable from an empty factory by calls of `registerWidget`,
`unregisterWidget`, `eventFilter` (with any event) and `widgetDestroyed`, every widget has
at most one shadow among the children of its parent: the list of its shadows has length at
most one, and any two children of the parent that are shadows tracking it are equal. -/
theorem at_most_one_shadow_per_widget (m : StyleMetrics) (σ : State) (h : Reachable m σ)
    (w : Nat) :
    (shadowsOf σ w).length ≤ 1 ∧
    ∀ p s1 s2, (σ.widgets w).parent = some p →
      s1 ∈ (σ.widgets p).children → s2 ∈ (σ.widgets p).children →
      (σ.widgets s1).cls = WidgetClass.MdiWindowShadow → (σ.widgets s1)._widget = some w →
      (σ.widgets s2).cls = WidgetClass.MdiWindowShadow → (σ.widgets s2)._widget = some w →
      s1 = s2 := by
  have hone := h.inv_of_reachable.atMostOne w
  refine ⟨hone, ?_⟩
  intro p s1 s2 hp h1 h2 c1 t1 c2 t2
  have m1 : s1 ∈ shadowsOf σ w := mem_shadowsOf.2 ⟨p, hp, h1, c1, t1⟩
  have m2 : s2 ∈ shadowsOf σ w := mem_shadowsOf.2 ⟨p, hp, h2, c2, t2⟩
  have f1 := findShadow_of_mem_shadowsOf hone m1
  have f2 := findShadow_of_mem_shadowsOf hone m2
  rw [f1] at f2
  exact Option.some.inj f2

/-- Witness for C1: after registering the visible sub-window 2 of the example tree and
then delivering a Show event for it, its shadows are exactly the one widget 4. -/
theorem at_most_one_shadow_per_widget_witness :
    shadowsOf (MdiWindowShadowFactory.call exampleMetrics exampleShadowed
        (Call.eventFilter 2 QEvent.Show)) 2 = [4] ∧
    (shadowsOf (MdiWindowShadowFactory.call exampleMetrics exampleShadowed
        (Call.eventFilter 2 QEvent.Show)) 2).length ≤ 1 :=
  ⟨by decide,
    (at_most_one_shadow_per_widget exampleMetrics _
      (Reachable.call exampleShadowed (Call.eventFilter 2 QEvent.Show)
        exampleShadowed_reachable) 2).1⟩

/-- C2: `registerWidget` returns false and leaves the whole state unchanged when the
widget is not an MDI sub-window, or its inner widget inherits `KMainWindow`, or it is
already registered; otherwise it returns true, the widget is in the registered set
afterwards and the state has changed. So the false return, and the no-op, happen exactly
in the three cases. -/
theorem registerWidget_rejects_exactly (m : StyleMetrics) (σ : State) (w : Nat) :
    (((σ.widgets w).cls.isMdiSubWindow = false ∨
        (∃ i, (σ.widgets w).inner = some i ∧ (σ.widgets i).cls.inheritsKMainWindow = true) ∨
        w ∈ σ._registeredWidgets) →
      MdiWindowShadowFactory.registerWidget m σ w = (false, σ)) ∧
    (¬ ((σ.widgets w).cls.isMdiSubWindow = false ∨
        (∃ i, (σ.widgets w).inner = some i ∧ (σ.widgets i).cls.inheritsKMainWindow = true) ∨
        w ∈ σ._registeredWidgets) →
      (MdiWindowShadowFactory.registerWidget m σ w).1 = true ∧
      w ∈ (MdiWindowShadowFactory.registerWidget m σ w).2._registeredWidgets ∧
      (MdiWindowShadowFactory.registerWidget m σ w).2._registeredWidgets
        = w :: σ._registeredWidgets) ∧
    ((MdiWindowShadowFactory.registerWidget m σ w).1 = false ↔
      ((σ.widgets w).cls.isMdiSubWindow = false ∨
        (∃ i, (σ.widgets w).inner = some i ∧ (σ.widgets i).cls.inheritsKMainWindow = true) ∨
        w ∈ σ._registeredWidgets)) ∧
    ((MdiWindowShadowFactory.registerWidget m σ w).2._registeredWidgets = σ._registeredWidgets ↔
      ((σ.widgets w).cls.isMdiSubWindow = false ∨
        (∃ i, (σ.widgets w).inner = some i ∧ (σ.widgets i).cls.inheritsKMainWindow = true) ∨
        w ∈ σ._registeredWidgets)) := by
  have hrej := MdiWindowShadowFactory.registerWidget_of_rejected m σ w
  have hacc : ¬ ((σ.widgets w).cls.isMdiSubWindow = false ∨
        (∃ i, (σ.widgets w).inner = some i ∧ (σ.widgets i).cls.inheritsKMainWindow = true) ∨
        w ∈ σ._registeredWidgets) →
      (MdiWindowShadowFactory.registerWidget m σ w).1 = true ∧
      w ∈ (MdiWindowShadowFactory.registerWidget m σ w).2._registeredWidgets ∧
      (MdiWindowShadowFactory.registerWidget m σ w).2._registeredWidgets
        = w :: σ._registeredWidgets := by
    intro hn
    simp only [not_or, not_exists, not_and, Bool.not_eq_false, Bool.not_eq_true] at hn
    obtain ⟨h1, h2, h3⟩ := hn
    rw [MdiWindowShadowFactory.registerWidget_of_accepted m σ w h1 h2 h3]
    have hreg : (if (σ.widgets w).visible = true then
          MdiWindowShadowFactory.updateShadowZOrder
            (MdiWindowShadowFactory.updateShadowGeometry m
              (MdiWindowShadowFactory.installShadow
                { σ with _registeredWidgets := σ._registeredWidgets.insert w } w) w) w
        else { σ with _registeredWidgets := σ._registeredWidgets.insert w })._registeredWidgets
        = w :: σ._registeredWidgets := by
      split
      · rw [MdiWindowShadowFactory.updateShadowZOrder_registered,
          MdiWindowShadowFactory.updateShadowGeometry_registered,
          MdiWindowShadowFactory.installShadow_registered]
        exact List.insert_of_not_mem h3
      · exact List.insert_of_not_mem h3
    refine ⟨rfl, ?_, hreg⟩
    show w ∈ _
    simp only
    rw [hreg]
    exact List.mem_cons_self w _
  refine ⟨hrej, hacc, ?_, ?_⟩
  · constructor
    · intro hf
      by_contra hn
      rw [(hacc hn).1] at hf
      exact absurd hf (by decide)
    · intro hr
      rw [hrej hr]
  · constructor
    · intro he
      by_contra hn
      rw [(hacc hn).2.2] at he
      exact absurd (congrArg List.length he) (by simp)
    · intro hr
      rw [hrej hr]

/-- Witness for C2 on the example: registering the sub-window 2 is accepted, registering
it a second time is rejected and changes nothing, and the viewport 1 is rejected. -/
theorem registerWidget_rejects_exactly_witness :
    (MdiWindowShadowFactory.registerWidget exampleMetrics exampleTree 2).1 = true ∧
    (MdiWindowShadowFactory.registerWidget exampleMetrics exampleTree 1).1 = false ∧
    2 ∈ exampleShadowed._registeredWidgets ∧
    MdiWindowShadowFactory.registerWidget exampleMetrics exampleShadowed 2
      = (false, exampleShadowed) :=
  ⟨by decide, by decide, by decide,
    (registerWidget_rejects_exactly exampleMetrics exampleShadowed 2).1
      (Or.inr (Or.inr (by decide)))⟩

/-- C3: in a reachable state, for a widget `w` with parent `p`: after `registerWidget`
accepts `w` while `w` is visible, and after `eventFilter` handles a Show event for `w`, a
shadow widget tracking `w` is among the children of `p`; and `registerWidget` on a widget
that is not visible leaves every widget and the set of objects as they were, so it
creates no shadow. -/
theorem shadow_created_when_visible (m : StyleMetrics) (σ : State) (w p : Nat)
    (hr : Reachable m σ) (hp : (σ.widgets w).parent = some p) :
    ((σ.widgets w).cls.isMdiSubWindow = true →
      (∀ i, (σ.widgets w).inner = some i → (σ.widgets i).cls.inheritsKMainWindow = false) →
      w ∉ σ._registeredWidgets → (σ.widgets w).visible = true →
      ∃ sh, sh ∈ ((MdiWindowShadowFactory.registerWidget m σ w).2.widgets p).children ∧
        ((MdiWindowShadowFactory.registerWidget m σ w).2.widgets sh).cls
          = WidgetClass.MdiWindowShadow ∧
        ((MdiWindowShadowFactory.registerWidget m σ w).2.widgets sh)._widget = some w) ∧
    (∃ sh, sh ∈ ((MdiWindowShadowFactory.eventFilter m σ w QEvent.Show).2.widgets p).children ∧
        ((MdiWindowShadowFactory.eventFilter m σ w QEvent.Show).2.widgets sh).cls
          = WidgetClass.MdiWindowShadow ∧
        ((MdiWindowShadowFactory.eventFilter m σ w QEvent.Show).2.widgets sh)._widget
          = some w) ∧
    ((σ.widgets w).visible = false →
      (MdiWindowShadowFactory.registerWidget m σ w).2.widgets = σ.widgets ∧
      (MdiWindowShadowFactory.registerWidget m σ w).2.nextId = σ.nextId) := by
  refine ⟨?_, ?_, ?_⟩
  · intro h1 h2 h3 hv
    have hi0 : Inv { σ with _registeredWidgets := σ._registeredWidgets.insert w } :=
      Inv.of_same_widgets hr.inv_of_reachable rfl rfl
    obtain ⟨sh, a, b, c, -⟩ :=
      @MdiWindowShadowFactory.show_sequence_shadow m _ hi0 w p hp
    rw [MdiWindowShadowFactory.registerWidget_of_accepted m σ w h1 h2 h3]
    simp only [hv, if_true]
    exact ⟨sh, a, b, c⟩
  · obtain ⟨sh, a, b, c, -⟩ := MdiWindowShadowFactory.show_sequence_shadow m hr.inv_of_reachable hp
    exact ⟨sh, a, b, c⟩
  · intro hv
    by_cases hrej : ((σ.widgets w).cls.isMdiSubWindow = false ∨
        (∃ i, (σ.widgets w).inner = some i ∧ (σ.widgets i).cls.inheritsKMainWindow = true) ∨
        w ∈ σ._registeredWidgets)
    · rw [MdiWindowShadowFactory.registerWidget_of_rejected m σ w hrej]
      exact ⟨rfl, rfl⟩
    · simp only [not_or, not_exists, not_and, Bool.not_eq_false, Bool.not_eq_true] at hrej
      obtain ⟨h1, h2, h3⟩ := hrej
      rw [MdiWindowShadowFactory.registerWidget_of_accepted m σ w h1 h2 h3]
      simp [hv]

/-- Witness for C3 on the example tree: the visible sub-window 2 has parent 1; after it
is registered the parent's children are the new shadow 4 followed by 2 and 3, and a Show
event for it gives it a shadow as well. -/
theorem shadow_created_when_visible_witness :
    (exampleTree.widgets 2).parent = some 1 ∧
    ((MdiWindowShadowFactory.registerWidget exampleMetrics exampleTree 2).2.widgets 1).children
      = [4, 2, 3] ∧
    (∃ sh, sh ∈ ((MdiWindowShadowFactory.eventFilter exampleMetrics exampleTree 2
          QEvent.Show).2.widgets 1).children ∧
        ((MdiWindowShadowFactory.eventFilter exampleMetrics exampleTree 2
          QEvent.Show).2.widgets sh).cls = WidgetClass.MdiWindowShadow ∧
        ((MdiWindowShadowFactory.eventFilter exampleMetrics exampleTree 2
          QEvent.Show).2.widgets sh)._widget = some 2) :=
  ⟨by decide, by decide,
    (shadow_created_when_visible exampleMetrics exampleTree 2 1
      (Reachable.init exampleTree exampleTree_emptyFactory) (by decide)).2.1⟩

/-- C4: in a reachable state, `unregisterWidget` on a registered widget takes it out of
the registered set and hides and schedules for deletion every shadow it has;
`unregisterWidget` on a widget that is not registered leaves the state unchanged. -/
theorem unregisterWidget_removes_shadow (m : StyleMetrics) (σ : State) (w : Nat)
    (hr : Reachable m σ) :
    (w ∈ σ._registeredWidgets →
      w ∉ (MdiWindowShadowFactory.unregisterWidget σ w)._registeredWidgets ∧
      ∀ sh, sh ∈ shadowsOf σ w →
        ((MdiWindowShadowFactory.unregisterWidget σ w).widgets sh).visible = false ∧
        sh ∈ (MdiWindowShadowFactory.unregisterWidget σ w).deferredDelete) ∧
    (w ∉ σ._registeredWidgets → MdiWindowShadowFactory.unregisterWidget σ w = σ) := by
  constructor
  · intro hreg
    have hun : MdiWindowShadowFactory.unregisterWidget σ w =
        MdiWindowShadowFactory.removeShadow
          { σ with
            eventFilters := σ.eventFilters.filter (fun j => j != w),
            _registeredWidgets := σ._registeredWidgets.filter (fun j => j != w) } w := by
      simp [MdiWindowShadowFactory.unregisterWidget, MdiWindowShadowFactory.isRegistered, hreg]
    constructor
    · rw [hun]
      cases hf : MdiWindowShadowFactory.findShadow
          { σ with
            eventFilters := σ.eventFilters.filter (fun j => j != w),
            _registeredWidgets := σ._registeredWidgets.filter (fun j => j != w) } w with
      | none =>
        rw [MdiWindowShadowFactory.removeShadow_of_not_found hf]
        simp
      | some sh =>
        rw [MdiWindowShadowFactory.removeShadow_of_found hf]
        simp [deleteLater, hideWidget, State.modify]
    · intro sh hsh
      have hf : MdiWindowShadowFactory.findShadow
          { σ with
            eventFilters := σ.eventFilters.filter (fun j => j != w),
            _registeredWidgets := σ._registeredWidgets.filter (fun j => j != w) } w
          = some sh :=
        findShadow_of_mem_shadowsOf (hr.inv_of_reachable.atMostOne w) hsh
      rw [hun, MdiWindowShadowFactory.removeShadow_of_found hf]
      simp [deleteLater, hideWidget, State.modify]
  · intro hreg
    simp [MdiWindowShadowFactory.unregisterWidget, MdiWindowShadowFactory.isRegistered, hreg]

/-- Witness for C4 on the example: sub-window 2 is registered and has the shadow 4; after
`unregisterWidget` it is not registered any more and the shadow is hidden and scheduled
for deletion. -/
theorem unregisterWidget_removes_shadow_witness :
    2 ∈ exampleShadowed._registeredWidgets ∧
    shadowsOf exampleShadowed 2 = [4] ∧
    (exampleShadowed.widgets 4).visible = true ∧
    (2 ∉ (MdiWindowShadowFactory.unregisterWidget exampleShadowed 2)._registeredWidgets ∧
      ∀ sh, sh ∈ shadowsOf exampleShadowed 2 →
        ((MdiWindowShadowFactory.unregisterWidget exampleShadowed 2).widgets sh).visible = false ∧
        sh ∈ (MdiWindowShadowFactory.unregisterWidget exampleShadowed 2).deferredDelete) :=
  ⟨by decide, by decide, by decide,
    (unregisterWidget_removes_shadow exampleMetrics exampleShadowed 2
      exampleShadowed_reachable).1 (by decide)⟩

/-- The Destroy branch of `eventFilter` does for a registered widget what
`unregisterWidget` does: the widget leaves the registered set and its shadows are hidden
and scheduled for deletion. -/
theorem eventFilter_destroy_removes_shadow (m : StyleMetrics) (σ : State) (w : Nat)
    (hr : Reachable m σ) (hreg : w ∈ σ._registeredWidgets) :
    w ∉ (MdiWindowShadowFactory.eventFilter m σ w QEvent.Destroy).2._registeredWidgets ∧
    ∀ sh, sh ∈ shadowsOf σ w →
      ((MdiWindowShadowFactory.eventFilter m σ w QEvent.Destroy).2.widgets sh).visible = false ∧
      sh ∈ (MdiWindowShadowFactory.eventFilter m σ w QEvent.Destroy).2.deferredDelete := by
  have hun : (MdiWindowShadowFactory.eventFilter m σ w QEvent.Destroy).2 =
      MdiWindowShadowFactory.removeShadow
        { σ with _registeredWidgets := σ._registeredWidgets.filter (fun j => j != w) } w := by
    simp [MdiWindowShadowFactory.eventFilter, MdiWindowShadowFactory.isRegistered, hreg]
  constructor
  · rw [hun]
    cases hf : MdiWindowShadowFactory.findShadow
        { σ with _registeredWidgets := σ._registeredWidgets.filter (fun j => j != w) } w with
    | none =>
      rw [MdiWindowShadowFactory.removeShadow_of_not_found hf]
      simp
    | some sh =>
      rw [MdiWindowShadowFactory.removeShadow_of_found hf]
      simp [deleteLater, hideWidget, State.modify]
  · intro sh hsh
    have hf : MdiWindowShadowFactory.findShadow
        { σ with _registeredWidgets := σ._registeredWidgets.filter (fun j => j != w) } w
        = some sh :=
      findShadow_of_mem_shadowsOf (hr.inv_of_reachable.atMostOne w) hsh
    rw [hun, MdiWindowShadowFactory.removeShadow_of_found hf]
    simp [deleteLater, hideWidget, State.modify]

/-- The slot `widgetDestroyed` touches nothing but the registered set: no widget is
hidden and no deletion is scheduled. -/
theorem widgetDestroyed_keeps_widgets (σ : State) (w : Nat) :
    (MdiWindowShadowFactory.widgetDestroyed σ w).widgets = σ.widgets ∧
    (MdiWindowShadowFactory.widgetDestroyed σ w).deferredDelete = σ.deferredDelete ∧
    w ∉ (MdiWindowShadowFactory.widgetDestroyed σ w)._registeredWidgets := by
  refine ⟨rfl, rfl, ?_⟩
  simp [MdiWindowShadowFactory.widgetDestroyed]

/-- C5, at the failing input: in the example, sub-window 2 is registered and has the
visible shadow 4. A Destroy event handled by `eventFilter` unregisters it and hides and
schedules the shadow for deletion; the slot `widgetDestroyed` only unregisters it: the
shadow 4 stays a visible child of the viewport tracking widget 2 and no deletion is
scheduled. -/
theorem widgetDestroyed_leaves_shadow :
    2 ∈ exampleShadowed._registeredWidgets ∧
    shadowsOf exampleShadowed 2 = [4] ∧
    (exampleShadowed.widgets 4).visible = true ∧
    (2 ∉ (MdiWindowShadowFactory.eventFilter exampleMetrics exampleShadowed 2
        QEvent.Destroy).2._registeredWidgets ∧
      ((MdiWindowShadowFactory.eventFilter exampleMetrics exampleShadowed 2
        QEvent.Destroy).2.widgets 4).visible = false ∧
      4 ∈ (MdiWindowShadowFactory.eventFilter exampleMetrics exampleShadowed 2
        QEvent.Destroy).2.deferredDelete) ∧
    (2 ∉ (MdiWindowShadowFactory.widgetDestroyed exampleShadowed 2)._registeredWidgets ∧
      shadowsOf (MdiWindowShadowFactory.widgetDestroyed exampleShadowed 2) 2 = [4] ∧
      ((MdiWindowShadowFactory.widgetDestroyed exampleShadowed 2).widgets 4).visible = true ∧
      4 ∉ (MdiWindowShadowFactory.widgetDestroyed exampleShadowed 2).deferredDelete) := by
  decide

/-- C9: in a reachable state, for a widget `w` with parent `p`: `updateZOrder` run for a
widget tracking `w` that is another child of `p` leaves it immediately below `w` in the
children of `p`; so does the registration of `w` when it is accepted and `w` is visible,
so does a Show event for `w`, each with a shadow of `w` present, and so does a
ZOrderChange event for every shadow of `w`. -/
theorem shadow_stacked_directly_below (m : StyleMetrics) (σ : State) (w p : Nat)
    (hr : Reachable m σ) (hp : (σ.widgets w).parent = some p) :
    (∀ sh, (σ.widgets sh)._widget = some w → (σ.widgets sh).parent = some p → sh ≠ w →
      DirectlyBelow ((MdiWindowShadow.updateZOrder σ sh).widgets p).children sh w) ∧
    ((σ.widgets w).cls.isMdiSubWindow = true →
      (∀ i, (σ.widgets w).inner = some i → (σ.widgets i).cls.inheritsKMainWindow = false) →
      w ∉ σ._registeredWidgets → (σ.widgets w).visible = true →
      ∃ sh, sh ∈ ((MdiWindowShadowFactory.registerWidget m σ w).2.widgets p).children ∧
        ((MdiWindowShadowFactory.registerWidget m σ w).2.widgets sh).cls
          = WidgetClass.MdiWindowShadow ∧
        ((MdiWindowShadowFactory.registerWidget m σ w).2.widgets sh)._widget = some w ∧
        DirectlyBelow ((MdiWindowShadowFactory.registerWidget m σ w).2.widgets p).children
          sh w) ∧
    (∃ sh, sh ∈ ((MdiWindowShadowFactory.eventFilter m σ w QEvent.Show).2.widgets p).children ∧
        ((MdiWindowShadowFactory.eventFilter m σ w QEvent.Show).2.widgets sh).cls
          = WidgetClass.MdiWindowShadow ∧
        ((MdiWindowShadowFactory.eventFilter m σ w QEvent.Show).2.widgets sh)._widget
          = some w ∧
        DirectlyBelow
          ((MdiWindowShadowFactory.eventFilter m σ w QEvent.Show).2.widgets p).children sh w) ∧
    (∀ sh, sh ∈ shadowsOf σ w →
      sh ∈ shadowsOf (MdiWindowShadowFactory.eventFilter m σ w QEvent.ZOrderChange).2 w ∧
      DirectlyBelow
        ((MdiWindowShadowFactory.eventFilter m σ w QEvent.ZOrderChange).2.widgets p).children
        sh w) := by
  refine ⟨?_, ?_, ?_, ?_⟩
  · intro sh htr hps hne
    have : MdiWindowShadow.updateZOrder σ sh = stackUnder σ sh w := by
      simp [MdiWindowShadow.updateZOrder, htr]
    rw [this]
    exact stackUnder_directlyBelow hr.inv_of_reachable.tree sh w p hps hp hne
  · intro h1 h2 h3 hv
    have hi0 : Inv { σ with _registeredWidgets := σ._registeredWidgets.insert w } :=
      Inv.of_same_widgets hr.inv_of_reachable rfl rfl
    obtain ⟨sh, a, b, c, d⟩ :=
      @MdiWindowShadowFactory.show_sequence_shadow m _ hi0 w p hp
    rw [MdiWindowShadowFactory.registerWidget_of_accepted m σ w h1 h2 h3]
    simp only [hv, if_true]
    exact ⟨sh, a, b, c, d⟩
  · exact MdiWindowShadowFactory.show_sequence_shadow m hr.inv_of_reachable hp
  · intro sh hsh
    have hf := findShadow_of_mem_shadowsOf (hr.inv_of_reachable.atMostOne w) hsh
    obtain ⟨q, hq, hq2, a, b, c, d⟩ :=
      MdiWindowShadowFactory.updateShadowZOrder_directlyBelow hr.inv_of_reachable hf
    have hqp : q = p := by
      rw [hp] at hq
      exact (Option.some.inj hq).symm
    subst hqp
    exact ⟨mem_shadowsOf.2 ⟨q, hq2, a, b, c⟩, d⟩

/-- Witness for C9 on the example: sub-window 2 has the shadow 4, and after a
ZOrderChange event for it the children of the viewport are the shadow 4 followed at once
by the sub-window 2. -/
theorem shadow_stacked_directly_below_witness :
    (exampleShadowed.widgets 2).parent = some 1 ∧
    shadowsOf exampleShadowed 2 = [4] ∧
    ((MdiWindowShadowFactory.eventFilter exampleMetrics exampleShadowed 2
        QEvent.ZOrderChange).2.widgets 1).children = [4, 2, 3] ∧
    (∀ sh, sh ∈ shadowsOf exampleShadowed 2 →
      sh ∈ shadowsOf (MdiWindowShadowFactory.eventFilter exampleMetrics exampleShadowed 2
        QEvent.ZOrderChange).2 2 ∧
      DirectlyBelow
        ((MdiWindowShadowFactory.eventFilter exampleMetrics exampleShadowed 2
          QEvent.ZOrderChange).2.widgets 1).children sh 2) :=
  ⟨by decide, by decide, by decide,
    (shadow_stacked_directly_below exampleMetrics exampleShadowed 2 1
      exampleShadowed_reachable (by decide)).2.2.2⟩


end Breeze
